import Mathlib

/-!
# Verification of the Trading-App signal / confidence-scoring pipeline

Shallow embedding of the core pipeline of the repository
(`src/indicators/math.js`, `src/indicators/vsa.js`, `src/indicators/daily.js`,
`src/data/resample.js`, `src/engine/score.js`, `src/app/App.jsx`) in Lean 4,
together with theorems settling the specification claims about it.

Modelling conventions:
* JavaScript numbers are modelled by `Option ℚ` (`NumV`): `none` is the
  not-a-number sentinel (JS `NaN` / `undefined`), `some q` a finite value.
  `Number.isFinite v` becomes `v.isSome`; comparisons involving `NaN`
  are `false`, exactly as in JS.
* Timestamps are `Int` (epoch milliseconds).
* Array indexing `arr[i]` is `List.getD i none` (out of range = `undefined`,
  which is not finite); where the code writes into a preallocated
  `new Array(n).fill(x)` we build the n-element output list directly.
* `Math.sqrt` (used only by `std`, whose numeric values no claim below
  depends on) is modelled by the computable `Rat.sqrt`.
-/

namespace Trading

/-- A JavaScript number: `none` is the NaN sentinel. -/
abbrev NumV : Type := Option ℚ

/-- Coerce a rational into a JS number value. -/
def numv (q : ℚ) : NumV := some q

/-- `Number.isFinite v ? v : 0` — NaN contributes zero. -/
def finOr0 (v : NumV) : ℚ := v.getD 0

/-- JS `Number.isFinite`. -/
def isFin (v : NumV) : Bool := v.isSome

/-- JS subtraction with NaN propagation. -/
def nsub (a b : NumV) : NumV :=
  match a, b with
  | some x, some y => some (x - y)
  | _, _ => none

/-- JS `a <= b` — false when either side is NaN. -/
def nle (a b : NumV) : Bool :=
  match a, b with
  | some x, some y => decide (x ≤ y)
  | _, _ => false

/-- JS `a < b` — false when either side is NaN. -/
def nlt (a b : NumV) : Bool :=
  match a, b with
  | some x, some y => decide (x < y)
  | _, _ => false

/-- `ch > 0 ? ch : 0` (NaN gives 0). -/
def posPart (ch : NumV) : ℚ :=
  match ch with
  | some c => if 0 < c then c else 0
  | none => 0

/-- `ch < 0 ? -ch : 0` (NaN gives 0). -/
def negPart (ch : NumV) : ℚ :=
  match ch with
  | some c => if c < 0 then -c else 0
  | none => 0

/-! ## `sma` — src/indicators/math.js lines 4–19

```js
export const sma = (arr, period) => {
  const n = ...arr.length...; const out = new Array(n).fill(NaN);
  if (!n || period <= 0) return out;
  let sum = 0;
  for (let i = 0; i < n; i++) {
    const v = arr[i];
    sum += Number.isFinite(v) ? v : 0;
    if (i >= period) { const vOld = arr[i - period]; sum -= Number.isFinite(vOld) ? vOld : 0; }
    if (i >= period - 1) out[i] = sum / period;
  }
  return out;
};
```
The loop body, as a fold step over the index list with state `(sum, out)`: -/
def smaNewSum (arr : List NumV) (period : Nat) (s : ℚ) (i : Nat) : ℚ :=
  if period ≤ i then s + finOr0 (arr.getD i none) - finOr0 (arr.getD (i - period) none)
  else s + finOr0 (arr.getD i none)

def smaStep (arr : List NumV) (period : Nat) (st : ℚ × List NumV) (i : Nat) :
    ℚ × List NumV :=
  (smaNewSum arr period st.1 i,
   if period - 1 ≤ i then st.2 ++ [some (smaNewSum arr period st.1 i / period)]
   else st.2 ++ [none])

/-- Simple moving average, `sma` of src/indicators/math.js. -/
def sma (arr : List NumV) (period : Nat) : List NumV :=
  if arr.length = 0 ∨ period = 0 then List.replicate arr.length none
  else ((List.range arr.length).foldl (smaStep arr period) (0, [])).2

/-- The trailing-window sum the running-sum recurrence maintains:
sum of the finite values among `arr[k-period] … arr[k-1]` (NaN counted as 0). -/
def winSum (arr : List NumV) (period k : Nat) : ℚ :=
  ∑ j ∈ Finset.Ico (k - period) k, finOr0 (arr.getD j none)

/-- Sliding-window identity: one fold step moves the window one slot right. -/
lemma winSum_succ (arr : List NumV) (period k : Nat) :
    winSum arr period (k + 1) =
      winSum arr period k + finOr0 (arr.getD k none)
        - (if period ≤ k then finOr0 (arr.getD (k - period) none) else 0) := by
  unfold winSum
  by_cases hk : period ≤ k
  · have h1 : k + 1 - period = (k - period) + 1 := by omega
    have htop : (∑ j ∈ Finset.Ico (k - period) (k + 1), finOr0 (arr.getD j none))
        = (∑ j ∈ Finset.Ico (k - period) k, finOr0 (arr.getD j none))
          + finOr0 (arr.getD k none) :=
      Finset.sum_Ico_succ_top (by omega) _
    have hbot : (∑ j ∈ Finset.Ico (k - period) (k + 1), finOr0 (arr.getD j none))
        = finOr0 (arr.getD (k - period) none)
          + ∑ j ∈ Finset.Ico (k - period + 1) (k + 1), finOr0 (arr.getD j none) :=
      Finset.sum_eq_sum_Ico_succ_bot (by omega) _
    rw [if_pos hk, h1]
    linarith
  · have h1 : k - period = 0 := by omega
    have h2 : k + 1 - period = 0 := by omega
    rw [if_neg hk, h1, h2, ← Finset.range_eq_Ico, Finset.sum_range_succ]
    ring

lemma smaAcc_spec (arr : List NumV) (period : Nat) (k : Nat) :
    ((List.range k).foldl (smaStep arr period) (0, [])).1 = winSum arr period k ∧
      ((List.range k).foldl (smaStep arr period) (0, [])).2 =
        (List.range k).map
          (fun i => if period ≤ i + 1 then some (winSum arr period (i + 1) / period) else none) := by
  induction k with
  | zero => simp [winSum]
  | succ k ih =>
    have hstep :
        (List.range (k + 1)).foldl (smaStep arr period) (0, [])
          = smaStep arr period ((List.range k).foldl (smaStep arr period) (0, [])) k := by
      rw [List.range_succ, List.foldl_append, List.foldl_cons, List.foldl_nil]
    have hnew : smaNewSum arr period
        ((List.range k).foldl (smaStep arr period) (0, [])).1 k
        = winSum arr period (k + 1) := by
      rw [ih.1, winSum_succ]
      unfold smaNewSum
      by_cases hk : period ≤ k
      · simp only [if_pos hk]
      · simp only [if_neg hk]; ring
    constructor
    · rw [hstep]; exact hnew
    · rw [hstep]
      show (if period - 1 ≤ k then _ ++ [some (smaNewSum arr period _ k / period)]
            else _ ++ [none]) = _
      rw [hnew, ih.2, List.range_succ, List.map_append, List.map_cons, List.map_nil]
      by_cases hk1 : period ≤ k + 1
      · rw [if_pos (by omega : period - 1 ≤ k), if_pos hk1]
      · rw [if_neg (by omega : ¬ period - 1 ≤ k), if_neg hk1]

/-- Pointwise description of `sma` for a positive period: position `i` holds
the sentinel below `period - 1` and the window sum divided by `period` from
`period - 1` on. -/
lemma sma_eq_map (arr : List NumV) (period : Nat) (hp : 1 ≤ period) :
    sma arr period =
      (List.range arr.length).map
        (fun i => if period ≤ i + 1 then some (winSum arr period (i + 1) / period) else none) := by
  unfold sma
  by_cases h0 : arr.length = 0
  · simp [h0]
  · rw [if_neg (by push_neg; exact ⟨h0, by omega⟩)]
    exact (smaAcc_spec arr period arr.length).2

lemma getD_map_range {α : Type*} (f : Nat → α) (n i : Nat) (d : α) (h : i < n) :
    ((List.range n).map f).getD i d = f i := by
  rw [List.getD_eq_getElem _ _ (by simpa using h)]
  simp

lemma sma_length (arr : List NumV) (period : Nat) :
    (sma arr period).length = arr.length := by
  unfold sma
  split
  · simp
  · next h =>
    have hp : 1 ≤ period := by
      rcases Nat.eq_zero_or_pos period with h' | h'
      · exact absurd (Or.inr h') h
      · exact h'
    rw [show ((List.range arr.length).foldl (smaStep arr period) (0, [])).2
        = sma arr period by unfold sma; rw [if_neg h], sma_eq_map arr period hp]
    simp

/-- **C10.** In `sma` (src/indicators/math.js), for every input, period ≥ 1 and
index `i ≥ period − 1`, the output at `i` is `some` of the sum of the trailing
`period`-length window — with non-finite inputs contributing `0` — divided by
`period`.  In particular the output at such positions is a defined number even
when sentinel values lie inside the window. -/
theorem sma_window_mean (arr : List NumV) (period i : Nat)
    (hp : 1 ≤ period) (hi : period - 1 ≤ i) (hn : i < arr.length) :
    (sma arr period).getD i none =
      some ((∑ j ∈ Finset.Ico (i + 1 - period) (i + 1), finOr0 (arr.getD j none)) / period) := by
  rw [sma_eq_map arr period hp, getD_map_range _ _ _ _ hn,
    if_pos (by omega : period ≤ i + 1)]
  rfl

/-- Witness for `sma_window_mean`: `sma [4, NaN, 5] 2` at index 2 is
`(0 + 5)/2 = 5/2` — the NaN inside the window counts as zero and the
output is still a defined number. -/
theorem sma_window_mean_witness :
    1 ≤ 2 ∧ 2 - 1 ≤ 2 ∧ 2 < ([some 4, none, some 5] : List NumV).length ∧
      (sma [some 4, none, some 5] 2).getD 2 none =
        some ((∑ j ∈ Finset.Ico (2 + 1 - 2) (2 + 1),
          finOr0 (([some 4, none, some 5] : List NumV).getD j none)) / 2) :=
  ⟨by decide, by decide, by decide,
    sma_window_mean [some 4, none, some 5] 2 2 (by decide) (by decide) (by decide)⟩

/-- Generic length lemma: a fold whose step appends exactly one element to
the projected output list grows it by the input length. -/
lemma foldl_proj_length {σ α γ : Type*} (f : σ → α → σ) (proj : σ → List γ)
    (hf : ∀ st a, (proj (f st a)).length = (proj st).length + 1) :
    ∀ (l : List α) (st : σ), (proj (l.foldl f st)).length = (proj st).length + l.length := by
  intro l
  induction l with
  | nil => simp
  | cons a l ih =>
    intro st
    rw [List.foldl_cons, ih (f st a), hf st a]
    simp [Nat.add_assoc, Nat.add_comm 1 l.length]

/-! ## `ema` — src/indicators/math.js lines 21–33

```js
export const ema = (arr, period) => {
  ... if (!n || period <= 0) return out;
  const k = 2 / (period + 1);
  let prev = NaN;
  for (let i = 0; i < n; i++) {
    const v = Number.isFinite(arr[i]) ? arr[i] : prev;
    prev = Number.isFinite(prev) ? (v * k + prev * (1 - k)) : v;
    out[i] = prev;
  }
  return out;
};
``` -/
def emaStep (k : ℚ) (prev x : NumV) : NumV :=
  let v : NumV := match x with | some a => some a | none => prev
  match prev with
  | some p => match v with
              | some vv => some (vv * k + p * (1 - k))
              | none => none
  | none => v

def ema (arr : List NumV) (period : Nat) : List NumV :=
  if arr.length = 0 ∨ period = 0 then List.replicate arr.length none
  else (arr.foldl (fun (st : NumV × List NumV) x =>
        (emaStep (2 / (period + 1)) st.1 x, st.2 ++ [emaStep (2 / (period + 1)) st.1 x]))
        (none, [])).2

lemma ema_length (arr : List NumV) (period : Nat) :
    (ema arr period).length = arr.length := by
  unfold ema
  split
  · simp
  · simpa using foldl_proj_length _ Prod.snd (fun st (a : NumV) => by simp) arr
      ((none, []) : NumV × List NumV)

/-! ## `std` — src/indicators/math.js lines 35–53

Population standard deviation of the trailing window against `sma`'s mean,
skipping non-finite inputs in both accumulators.  `Math.sqrt` is modelled by
the computable `Rat.sqrt`; no claim below depends on the sqrt values. -/
def stdAt (arr : List NumV) (ma_i : NumV) (period i : Nat) : NumV :=
  let st := (List.range' (i - (period - 1)) period).foldl
    (fun (p : ℚ × Nat) j =>
      match arr.getD j none, ma_i with
      | some v, some m => (p.1 + (v - m) * (v - m), p.2 + 1)
      | _, _ => p) (0, 0)
  if st.2 ≠ 0 then some (Rat.sqrt (st.1 / st.2)) else none

def std (arr : List NumV) (period : Nat) : List NumV :=
  if arr.length = 0 ∨ period = 0 then List.replicate arr.length none
  else (List.range arr.length).map (fun i =>
    if period - 1 ≤ i then stdAt arr ((sma arr period).getD i none) period i else none)

lemma std_length (arr : List NumV) (period : Nat) :
    (std arr period).length = arr.length := by
  unfold std; split <;> simp

/-! ## `atr` — src/indicators/math.js (enriched variant) / App.jsx lines 104–133

True range seeded by a growing simple mean for the first `period` defined
bars, Wilder smoothing afterwards; bars with missing high/low are skipped
(the output stays NaN there) and a missing close falls back to the last
seen close. -/
structure AtrState where
  prevClose : NumV
  running : ℚ
  seeded : Bool
  prevAtr : NumV
  out : List NumV

def atrStep (high low close : List NumV) (period : Nat) (st : AtrState) (i : Nat) :
    AtrState :=
  let cl : NumV := match close.getD i none with
    | some c => some c
    | none => st.prevClose
  match high.getD i none, low.getD i none with
  | some h, some l =>
    let trBase := h - l
    let trHigh := match st.prevClose with | some pc => |h - pc| | none => trBase
    let trLow := match st.prevClose with | some pc => |l - pc| | none => trBase
    let tr := max trBase (max trHigh trLow)
    if st.seeded then
      let pa := match st.prevAtr with
        | some p => (p * ((period : ℚ) - 1) + tr) / period
        | none => tr
      { st with prevClose := cl, prevAtr := some pa, out := st.out ++ [some pa] }
    else
      let running := st.running + tr
      let o : NumV := some (running / (i + 1))
      { prevClose := cl, running := running,
        seeded := decide (period ≤ i + 1),
        prevAtr := if period ≤ i + 1 then o else st.prevAtr,
        out := st.out ++ [o] }
  | _, _ => { st with prevClose := cl, out := st.out ++ [none] }

def atr (high low close : List NumV) (period : Nat) : List NumV :=
  if close.length = 0 ∨ period = 0 then List.replicate close.length none
  else ((List.range close.length).foldl (atrStep high low close period)
        ⟨close.getD 0 none, 0, false, none, []⟩).out

lemma atrStep_out_length (high low close : List NumV) (period : Nat)
    (st : AtrState) (i : Nat) :
    ((atrStep high low close period st i).out).length = st.out.length + 1 := by
  unfold atrStep
  rcases high.getD i none with _ | h <;> rcases low.getD i none with _ | l <;> simp
  split <;> simp

lemma atr_length (high low close : List NumV) (period : Nat) :
    (atr high low close period).length = close.length := by
  unfold atr
  split
  · simp
  · rw [foldl_proj_length _ AtrState.out (atrStep_out_length high low close period) _ _]
    simp

/-! ## `macdLine` — src/indicators/math.js lines 81–87 -/
structure MacdResult where
  macd : List NumV
  signal : List NumV

def macdLine (arr : List NumV) (fast slow signal : Nat) : MacdResult :=
  let macdFast := ema arr fast
  let macdSlow := ema arr slow
  let macd := (List.range macdFast.length).map (fun i =>
    match macdFast.getD i none, macdSlow.getD i none with
    | some v, some w => some (v - w)
    | _, _ => none)
  ⟨macd, ema macd signal⟩

lemma macdLine_length (arr : List NumV) (fast slow signal : Nat) :
    (macdLine arr fast slow signal).macd.length = arr.length ∧
      (macdLine arr fast slow signal).signal.length = arr.length := by
  unfold macdLine
  constructor
  · simp [ema_length]
  · simp [ema_length]

/-! ## `slope` — src/indicators/math.js lines 89–107

OLS slope of `(x, y)` pairs over the trailing window, skipping non-finite
values (the running x-counter still advances with the skipped slot). -/
def slopeAt (arr : List NumV) (window i : Nat) : NumV :=
  let st := (List.range window).foldl
    (fun (s : ℚ × ℚ × ℚ × ℚ × Nat) x =>
      match arr.getD (i - (window - 1) + x) none with
      | none => s
      | some y => (s.1 + x, s.2.1 + y, s.2.2.1 + (x : ℚ) * x, s.2.2.2.1 + x * y,
          s.2.2.2.2 + 1))
    (0, 0, 0, 0, 0)
  if 2 ≤ st.2.2.2.2 then
    let cnt : ℚ := st.2.2.2.2
    let denom := cnt * st.2.2.1 - st.1 * st.1
    if denom ≠ 0 then some ((cnt * st.2.2.2.1 - st.1 * st.2.1) / denom) else none
  else none

def slope (arr : List NumV) (window : Nat) : List NumV :=
  if arr.length = 0 ∨ window ≤ 1 then List.replicate arr.length none
  else (List.range arr.length).map (fun i =>
    if window - 1 ≤ i then slopeAt arr window i else none)

lemma slope_length (arr : List NumV) (window : Nat) :
    (slope arr window).length = arr.length := by
  unfold slope; split <;> simp

/-! ## `rsi` — src/indicators/math.js lines 55–79 (library variant)

```js
export const rsi = (arr, period = 14) => {
  ... if (n < 2) return out;
  let gain = 0, loss = 0;
  for (let i = 1; i <= period && i < n; i++) {
    const ch = arr[i] - arr[i - 1];
    gain += ch > 0 ? ch : 0;
    loss += ch < 0 ? -ch : 0;
  }
  let avgGain = gain / period;
  let avgLoss = loss / period;
  for (let i = period; i < n; i++) {
    if (i > period) { ... Wilder recurrence ... }
    const rs = avgLoss === 0 ? Infinity : avgGain / avgLoss;
    out[i] = 100 - 100 / (1 + rs);
  }
  return out;
};
```

`rsiGL arr period k` is the pair `(avgGain, avgLoss)` the loop holds when it
emits `out[period + k]`.  When `avgLoss = 0` the source computes
`100 - 100/(1 + Infinity)`, which is exactly `100`; the zero-loss branch of
`rsiOut` models that. -/
def rsiSeed (arr : List NumV) (period : Nat) : ℚ × ℚ :=
  let idx := List.range' 1 (min period (arr.length - 1))
  ((idx.foldl (fun g j => g + posPart (nsub (arr.getD j none) (arr.getD (j - 1) none))) 0)
      / period,
   (idx.foldl (fun l j => l + negPart (nsub (arr.getD j none) (arr.getD (j - 1) none))) 0)
      / period)

def rsiStep (arr : List NumV) (period : Nat) (st : ℚ × ℚ) (i : Nat) : ℚ × ℚ :=
  ((st.1 * ((period : ℚ) - 1) + posPart (nsub (arr.getD i none) (arr.getD (i - 1) none)))
      / period,
   (st.2 * ((period : ℚ) - 1) + negPart (nsub (arr.getD i none) (arr.getD (i - 1) none)))
      / period)

def rsiGL (arr : List NumV) (period : Nat) : Nat → ℚ × ℚ
  | 0 => rsiSeed arr period
  | k + 1 => rsiStep arr period (rsiGL arr period k) (period + k + 1)

def rsiOut (gl : ℚ × ℚ) : ℚ :=
  if gl.2 = 0 then 100 else 100 - 100 / (1 + gl.1 / gl.2)

def rsi (arr : List NumV) (period : Nat) : List NumV :=
  if arr.length < 2 then List.replicate arr.length none
  else (List.range arr.length).map (fun i =>
    if i < period then none else some (rsiOut (rsiGL arr period (i - period))))

lemma rsi_length (arr : List NumV) (period : Nat) :
    (rsi arr period).length = arr.length := by
  unfold rsi; split <;> simp

/-- Both running averages of the library `rsi` are nonnegative. -/
lemma rsiGL_nonneg (arr : List NumV) (period : Nat) (hp : 1 ≤ period) (k : Nat) :
    0 ≤ (rsiGL arr period k).1 ∧ 0 ≤ (rsiGL arr period k).2 := by
  have hper : (0 : ℚ) < period := by exact_mod_cast hp
  have hfold : ∀ (f : Nat → ℚ) (hf : ∀ j, 0 ≤ f j) (l : List Nat) (a : ℚ), 0 ≤ a →
      0 ≤ l.foldl (fun g j => g + f j) a := by
    intro f hf l
    induction l with
    | nil => intro a ha; simpa using ha
    | cons x xs ih =>
      intro a ha
      exact ih (a + f x) (by have := hf x; linarith)
  have hpos : ∀ v : NumV, 0 ≤ posPart v := by
    intro v; unfold posPart
    rcases v with _ | q
    · simp
    · dsimp; split <;> linarith
  have hneg : ∀ v : NumV, 0 ≤ negPart v := by
    intro v; unfold negPart
    rcases v with _ | q
    · simp
    · dsimp; split <;> linarith
  induction k with
  | zero =>
    unfold rsiGL rsiSeed
    constructor
    · exact div_nonneg (hfold _ (fun j => hpos _) _ 0 le_rfl) hper.le
    · exact div_nonneg (hfold _ (fun j => hneg _) _ 0 le_rfl) hper.le
  | succ k ih =>
    show 0 ≤ (rsiStep arr period (rsiGL arr period k) _).1 ∧
      0 ≤ (rsiStep arr period (rsiGL arr period k) _).2
    unfold rsiStep
    have h1 : (0 : ℚ) ≤ (period : ℚ) - 1 := by
      have : (1 : ℚ) ≤ (period : ℚ) := by exact_mod_cast hp
      linarith
    constructor
    · exact div_nonneg (by have := ih.1; have := hpos (nsub (arr.getD (period + k + 1) none)
        (arr.getD (period + k + 1 - 1) none)); nlinarith) hper.le
    · exact div_nonneg (by have := ih.2; have := hneg (nsub (arr.getD (period + k + 1) none)
        (arr.getD (period + k + 1 - 1) none)); nlinarith) hper.le

lemma rsiOut_bounds (gl : ℚ × ℚ) (hg : 0 ≤ gl.1) (hl : 0 ≤ gl.2) :
    0 ≤ rsiOut gl ∧ rsiOut gl ≤ 100 := by
  unfold rsiOut
  split
  · constructor <;> norm_num
  · next hne =>
    have hlpos : 0 < gl.2 := lt_of_le_of_ne hl (Ne.symm hne)
    have hrs : 0 ≤ gl.1 / gl.2 := div_nonneg hg hlpos.le
    have hden : (0 : ℚ) < 1 + gl.1 / gl.2 := by linarith
    have hfrac : 0 < 100 / (1 + gl.1 / gl.2) := by positivity
    have hle : 100 / (1 + gl.1 / gl.2) ≤ 100 := by
      rw [div_le_iff₀ hden]; nlinarith
    constructor <;> linarith

/-! ## `rsi` — App.jsx lines 136–158 (application variant)

Differences from the library variant: a stricter definedness guard
(`n < period + 1 || period < 2` gives an all-sentinel output), a seed that
subtracts raw deltas so a NaN delta poisons the loss accumulator, and —
decisive for claim C6 — `rs = loss === 0 ? 100 : gain / loss`, i.e. a zero
average loss produces `100 - 100/101 = 10000/101`, not `100`. -/
def nadd (a b : NumV) : NumV :=
  match a, b with
  | some x, some y => some (x + y)
  | _, _ => none

def rsiAppSeed (arr : List NumV) (period : Nat) : NumV × NumV :=
  let st := (List.range' 1 period).foldl
    (fun (st : NumV × NumV) j =>
      if nle (some 0) (nsub (arr.getD j none) (arr.getD (j - 1) none)) then
        (nadd st.1 (nsub (arr.getD j none) (arr.getD (j - 1) none)), st.2)
      else (st.1, nsub st.2 (nsub (arr.getD j none) (arr.getD (j - 1) none))))
    (some 0, some 0)
  (st.1.map (fun g => g / period), st.2.map (fun l => l / period))

def rsiAppStep (arr : List NumV) (period : Nat) (st : NumV × NumV) (i : Nat) :
    NumV × NumV :=
  let d := nsub (arr.getD i none) (arr.getD (i - 1) none)
  (st.1.map (fun g => (g * ((period : ℚ) - 1) + posPart d) / period),
   st.2.map (fun l => (l * ((period : ℚ) - 1) + negPart d) / period))

def rsiAppGL (arr : List NumV) (period : Nat) : Nat → NumV × NumV
  | 0 => rsiAppSeed arr period
  | k + 1 => rsiAppStep arr period (rsiAppGL arr period k) (period + k + 1)

def rsiAppOut (gl : NumV × NumV) : NumV :=
  if gl.2 = some 0 then some (100 - 100 / (1 + (100 : ℚ)))
  else match gl.1, gl.2 with
    | some g, some l => some (100 - 100 / (1 + g / l))
    | _, _ => none

def rsiApp (arr : List NumV) (period : Nat) : List NumV :=
  if arr.length < period + 1 ∨ period < 2 then List.replicate arr.length none
  else (List.range arr.length).map (fun i =>
    if i < period then none else rsiAppOut (rsiAppGL arr period (i - period)))

lemma rsiApp_length (arr : List NumV) (period : Nat) :
    (rsiApp arr period).length = arr.length := by
  unfold rsiApp; split <;> simp

/-- The defined running averages of the App `rsi` are nonnegative. -/
lemma rsiAppGL_nonneg (arr : List NumV) (period : Nat) (hp : 1 ≤ period) (k : Nat) :
    (∀ g, (rsiAppGL arr period k).1 = some g → 0 ≤ g) ∧
      (∀ l, (rsiAppGL arr period k).2 = some l → 0 ≤ l) := by
  have hper : (0 : ℚ) < period := by exact_mod_cast hp
  have hp1 : (0 : ℚ) ≤ (period : ℚ) - 1 := by
    have : (1 : ℚ) ≤ (period : ℚ) := by exact_mod_cast hp
    linarith
  have hpos : ∀ v : NumV, 0 ≤ posPart v := by
    intro v; unfold posPart
    rcases v with _ | q
    · simp
    · dsimp; split <;> linarith
  have hneg : ∀ v : NumV, 0 ≤ negPart v := by
    intro v; unfold negPart
    rcases v with _ | q
    · simp
    · dsimp; split <;> linarith
  induction k with
  | zero =>
    unfold rsiAppGL rsiAppSeed
    have hfold : ∀ (l : List Nat) (st : NumV × NumV)
        (h1 : ∀ g, st.1 = some g → 0 ≤ g) (h2 : ∀ l', st.2 = some l' → 0 ≤ l'),
        (∀ g, (l.foldl (fun (st : NumV × NumV) j =>
            let d := nsub (arr.getD j none) (arr.getD (j - 1) none)
            if nle (some 0) d then (nadd st.1 d, st.2) else (st.1, nsub st.2 d)) st).1
          = some g → 0 ≤ g) ∧
        (∀ l', (l.foldl (fun (st : NumV × NumV) j =>
            let d := nsub (arr.getD j none) (arr.getD (j - 1) none)
            if nle (some 0) d then (nadd st.1 d, st.2) else (st.1, nsub st.2 d)) st).2
          = some l' → 0 ≤ l') := by
      intro l
      induction l with
      | nil => intro st h1 h2; exact ⟨h1, h2⟩
      | cons x xs ih =>
        intro st h1 h2
        simp only [List.foldl_cons]
        set d := nsub (arr.getD x none) (arr.getD (x - 1) none) with hd
        by_cases hdge : nle (some 0) d = true
        · refine ih _ ?_ ?_
          · intro g hg
            rcases hst : st.1 with _ | g0
            · simp only [hdge, if_true] at hg
              rw [hst] at hg
              rcases d with _ | dv
              · simp [nadd] at hg
              · simp [nadd] at hg
            · simp only [hdge, if_true] at hg
              rw [hst] at hg
              rcases hdv : d with _ | dv
              · simp [nadd, hdv] at hg
              · rw [hdv] at hg
                simp only [nadd] at hg
                have hg0 : 0 ≤ g0 := h1 g0 hst
                have hdv0 : 0 ≤ dv := by
                  rw [hdv] at hdge
                  simp [nle] at hdge
                  exact hdge
                injection hg with hg
                subst hg; linarith
          · intro l' hl'
            simp only [hdge, if_true] at hl'
            exact h2 l' hl'
        · refine ih _ ?_ ?_
          · intro g hg
            simp only [hdge, if_false, Bool.not_eq_true] at hg
            exact h1 g hg
          · intro l' hl'
            simp only [hdge, if_false, Bool.not_eq_true] at hl'
            rcases hst : st.2 with _ | l0
            · rw [hst] at hl'
              rcases d with _ | dv <;> simp [nsub] at hl'
            · rw [hst] at hl'
              rcases hdv : d with _ | dv
              · simp [nsub, hdv] at hl'
              · rw [hdv] at hl'
                simp only [nsub] at hl'
                have hl0 : 0 ≤ l0 := h2 l0 hst
                have hdv0 : dv < 0 := by
                  rw [hdv] at hdge
                  simp [nle] at hdge
                  exact hdge
                injection hl' with hl'
                subst hl'; linarith
    have := hfold (List.range' 1 period) (some 0, some 0)
      (by intro g hg; injection hg with hg; subst hg; exact le_rfl)
      (by intro l hl; injection hl with hl; subst hl; exact le_rfl)
    constructor
    · intro g hg
      have hg' : ((List.range' 1 period).foldl
          (fun (st : NumV × NumV) j =>
            if nle (some 0) (nsub (arr.getD j none) (arr.getD (j - 1) none)) then
              (nadd st.1 (nsub (arr.getD j none) (arr.getD (j - 1) none)), st.2)
            else (st.1, nsub st.2 (nsub (arr.getD j none) (arr.getD (j - 1) none))))
          (some 0, some 0)).1.map (fun x => x / (period : ℚ)) = some g := hg
      simp only [Option.map_eq_some'] at hg'
      obtain ⟨g0, hg0, rfl⟩ := hg'
      exact div_nonneg (this.1 g0 hg0) hper.le
    · intro l hl
      have hl' : ((List.range' 1 period).foldl
          (fun (st : NumV × NumV) j =>
            if nle (some 0) (nsub (arr.getD j none) (arr.getD (j - 1) none)) then
              (nadd st.1 (nsub (arr.getD j none) (arr.getD (j - 1) none)), st.2)
            else (st.1, nsub st.2 (nsub (arr.getD j none) (arr.getD (j - 1) none))))
          (some 0, some 0)).2.map (fun x => x / (period : ℚ)) = some l := hl
      simp only [Option.map_eq_some'] at hl'
      obtain ⟨l0, hl0, rfl⟩ := hl'
      exact div_nonneg (this.2 l0 hl0) hper.le
  | succ k ih =>
    constructor
    · intro g hg
      have hg' : (rsiAppGL arr period k).1.map
          (fun g0 => (g0 * ((period : ℚ) - 1) + posPart (nsub (arr.getD (period + k + 1) none)
            (arr.getD (period + k + 1 - 1) none))) / period) = some g := hg
      simp only [Option.map_eq_some'] at hg'
      obtain ⟨g0, hg0, rfl⟩ := hg'
      have := ih.1 g0 hg0
      have hpp := hpos (nsub (arr.getD (period + k + 1) none) (arr.getD (period + k + 1 - 1) none))
      exact div_nonneg (by nlinarith) hper.le
    · intro l hl
      have hl' : (rsiAppGL arr period k).2.map
          (fun l0 => (l0 * ((period : ℚ) - 1) + negPart (nsub (arr.getD (period + k + 1) none)
            (arr.getD (period + k + 1 - 1) none))) / period) = some l := hl
      simp only [Option.map_eq_some'] at hl'
      obtain ⟨l0, hl0, rfl⟩ := hl'
      have := ih.2 l0 hl0
      have hnn := hneg (nsub (arr.getD (period + k + 1) none) (arr.getD (period + k + 1 - 1) none))
      exact div_nonneg (by nlinarith) hper.le

lemma rsiAppOut_bounds (gl : NumV × NumV)
    (hg : ∀ g, gl.1 = some g → 0 ≤ g) (hl : ∀ l, gl.2 = some l → 0 ≤ l)
    (r : ℚ) (h : rsiAppOut gl = some r) : 0 ≤ r ∧ r ≤ 100 := by
  unfold rsiAppOut at h
  split at h
  · injection h with h
    subst h; constructor <;> norm_num
  · next hne =>
    rcases h1 : gl.1 with _ | g
    · rw [h1] at h
      rcases h2 : gl.2 with _ | l <;> rw [h2] at h <;> simp at h
    rcases h2 : gl.2 with _ | l
    · rw [h1, h2] at h; simp at h
    rw [h1, h2] at h
    injection h with h
    have hg0 : 0 ≤ g := hg g h1
    have hl0 : 0 ≤ l := hl l h2
    have hlne : l ≠ 0 := by
      intro hc; rw [h2, hc] at hne; exact hne rfl
    have hlpos : 0 < l := lt_of_le_of_ne hl0 (Ne.symm hlne)
    have hrs : 0 ≤ g / l := div_nonneg hg0 hlpos.le
    have hden : (0 : ℚ) < 1 + g / l := by linarith
    have hfrac : 0 < 100 / (1 + g / l) := by positivity
    have hle : 100 / (1 + g / l) ≤ 100 := by
      rw [div_le_iff₀ hden]; nlinarith
    subst h; constructor <;> linarith

lemma getD_replicate_self {α : Type*} (n i : Nat) (d : α) :
    (List.replicate n d).getD i d = d := by
  rcases lt_or_ge i n with h | h
  · rw [List.getD_eq_getElem _ _ (by simpa using h)]
    exact List.getElem_replicate _ _
  · exact List.getD_eq_default _ _ (by simpa using h)

/-- A defined position of the library `rsi` is `rsiOut` of some loop state. -/
lemma rsi_getD_some (arr : List NumV) (period i : Nat) (r : ℚ)
    (h : (rsi arr period).getD i none = some r) :
    ∃ k, r = rsiOut (rsiGL arr period k) := by
  unfold rsi at h
  split at h
  · rw [getD_replicate_self] at h; exact absurd h (by simp)
  · rcases lt_or_ge i arr.length with hi | hi
    · rw [getD_map_range _ _ _ _ hi] at h
      split at h
      · exact absurd h (by simp)
      · exact ⟨i - period, by injection h with h; exact h.symm⟩
    · rw [List.getD_eq_default _ _ (by simpa using hi)] at h
      exact absurd h (by simp)

/-- A defined position of the App `rsi` is `rsiAppOut` of some loop state. -/
lemma rsiApp_getD_some (arr : List NumV) (period i : Nat) (r : ℚ)
    (h : (rsiApp arr period).getD i none = some r) :
    ∃ k, rsiAppOut (rsiAppGL arr period k) = some r := by
  unfold rsiApp at h
  split at h
  · rw [getD_replicate_self] at h; exact absurd h (by simp)
  · rcases lt_or_ge i arr.length with hi | hi
    · rw [getD_map_range _ _ _ _ hi] at h
      split at h
      · exact absurd h (by simp)
      · exact ⟨i - period, h⟩
    · rw [List.getD_eq_default _ _ (by simpa using hi)] at h
      exact absurd h (by simp)

/-- **C6 (amended).** For every input and period ≥ 1, both RSI variants are
bounded by `0 ≤ RSI ≤ 100` at every defined position.  When the smoothed
average loss is zero, the library `rsi` (src/indicators/math.js) returns
exactly `100` — the source computes `100 - 100/(1 + Infinity)`, which is 100 —
but the App.jsx variant maps zero loss to `rs = 100` and returns
`10000/101 ≈ 99.01`, a merely-near-100 value (still within bounds). -/
theorem rsi_bounds_zero_loss (arr : List NumV) (period i : Nat) (hp : 1 ≤ period) :
    (∀ r : ℚ, (rsi arr period).getD i none = some r → 0 ≤ r ∧ r ≤ 100) ∧
    ((rsiGL arr period (i - period)).2 = 0 → period ≤ i → i < arr.length →
      2 ≤ arr.length → (rsi arr period).getD i none = some 100) ∧
    (∀ r : ℚ, (rsiApp arr period).getD i none = some r → 0 ≤ r ∧ r ≤ 100) ∧
    ((rsiAppGL arr period (i - period)).2 = some 0 → period ≤ i → i < arr.length →
      period + 1 ≤ arr.length → 2 ≤ period →
      (rsiApp arr period).getD i none = some (10000 / 101)) := by
  refine ⟨?_, ?_, ?_, ?_⟩
  · intro r h
    obtain ⟨k, rfl⟩ := rsi_getD_some arr period i r h
    exact rsiOut_bounds _ (rsiGL_nonneg arr period hp k).1 (rsiGL_nonneg arr period hp k).2
  · intro hzero hpi hin h2
    unfold rsi
    rw [if_neg (by omega), getD_map_range _ _ _ _ hin, if_neg (by omega)]
    unfold rsiOut
    rw [if_pos hzero]
  · intro r h
    obtain ⟨k, hk⟩ := rsiApp_getD_some arr period i r h
    exact rsiAppOut_bounds _ (rsiAppGL_nonneg arr period hp k).1
      (rsiAppGL_nonneg arr period hp k).2 r hk
  · intro hzero hpi hin hn1 h2
    unfold rsiApp
    rw [if_neg (by omega), getD_map_range _ _ _ _ hin, if_neg (by omega)]
    unfold rsiAppOut
    rw [if_pos hzero]
    norm_num

/-- Witness for `rsi_bounds_zero_loss`: on the strictly increasing series
`0,1,…,15` the library `rsi` with period 14 has zero average loss at index 14
and returns exactly `100`. -/
theorem rsi_bounds_zero_loss_witness :
    1 ≤ 14 ∧
      (rsi [some 0, some 1, some 2, some 3, some 4, some 5, some 6, some 7, some 8,
        some 9, some 10, some 11, some 12, some 13, some 14, some 15] 14).getD 14 none
        = some 100 :=
  ⟨by decide,
    (rsi_bounds_zero_loss
      [some 0, some 1, some 2, some 3, some 4, some 5, some 6, some 7, some 8,
        some 9, some 10, some 11, some 12, some 13, some 14, some 15] 14 14
      (by decide)).2.1
      (by norm_num [rsiGL, rsiSeed, List.range', nsub, negPart, List.getD])
      (by decide) (by decide) (by decide)⟩

/-- **C6 counterexample.** The claim "zero average loss yields exactly 100"
fails on the App.jsx `rsi`: on the strictly increasing series `0,1,…,15` with
period 14 the average loss at index 14 is zero, yet the output is
`10000/101 ≈ 99.0099`, not `100`. -/
theorem rsiApp_zero_loss_not_100 :
    (rsiAppGL [some 0, some 1, some 2, some 3, some 4, some 5, some 6, some 7, some 8,
        some 9, some 10, some 11, some 12, some 13, some 14, some 15] 14 0).2 = some 0 ∧
      (rsiApp [some 0, some 1, some 2, some 3, some 4, some 5, some 6, some 7, some 8,
        some 9, some 10, some 11, some 12, some 13, some 14, some 15] 14).getD 14 none
        = some (10000 / 101) ∧
      ((10000 : ℚ) / 101) ≠ 100 := by
  have hseed : rsiAppGL [some 0, some 1, some 2, some 3, some 4, some 5, some 6, some 7,
      some 8, some 9, some 10, some 11, some 12, some 13, some 14, some 15] 14 0
      = (some 1, some 0) := by
    show rsiAppSeed _ 14 = _
    norm_num [rsiAppSeed, List.range', nsub, nadd, nle, List.getD]
  refine ⟨by rw [hseed], ?_, by norm_num⟩
  unfold rsiApp
  rw [if_neg (by norm_num), getD_map_range _ _ _ _ (by norm_num), if_neg (by norm_num)]
  show rsiAppOut (rsiAppGL _ 14 0) = _
  rw [hseed]
  unfold rsiAppOut
  norm_num

/-! ## `vsaSignals` — src/indicators/vsa.js (enriched variant), also inlined in
App.jsx lines 183–335

Eight boolean bullish patterns per bar, each contributing a fixed weight to a
per-bar score; the composite boolean fires when the score reaches the
activation constant.  Bar 0 and bars with missing/degenerate data are skipped
(flags 0, score 0, combined 0). -/
def ACTIVATION_SCORE : ℚ := 26 / 10

structure VsaWeights where
  stopping : ℚ
  noSupply : ℚ
  testBar : ℚ
  shakeout : ℚ
  climactic : ℚ
  spring : ℚ
  demand : ℚ
  effortResult : ℚ

/-- The fixed `WEIGHTS` record of src/indicators/vsa.js lines 11–20. -/
def WEIGHTS : VsaWeights :=
  { stopping := 16 / 10, noSupply := 11 / 10, testBar := 14 / 10, shakeout := 22 / 10,
    climactic := 2, spring := 26 / 10, demand := 17 / 10, effortResult := 12 / 10 }

/-- The score accumulation chain of vsa.js lines 134–142. -/
def vsaScoreOf (sv ns tst sho clim spr dem eff : Bool) : ℚ :=
  let sc : ℚ := 0
  let sc := if sv then sc + WEIGHTS.stopping else sc
  let sc := if ns then sc + WEIGHTS.noSupply else sc
  let sc := if tst then sc + WEIGHTS.testBar else sc
  let sc := if sho then sc + WEIGHTS.shakeout else sc
  let sc := if clim then sc + WEIGHTS.climactic else sc
  let sc := if spr then sc + WEIGHTS.spring else sc
  let sc := if dem then sc + WEIGHTS.demand else sc
  let sc := if eff then sc + WEIGHTS.effortResult else sc
  sc

lemma vsaScoreOf_eq (sv ns tst sho clim spr dem eff : Bool) :
    vsaScoreOf sv ns tst sho clim spr dem eff =
      (if sv then WEIGHTS.stopping else 0) + (if ns then WEIGHTS.noSupply else 0)
        + (if tst then WEIGHTS.testBar else 0) + (if sho then WEIGHTS.shakeout else 0)
        + (if clim then WEIGHTS.climactic else 0) + (if spr then WEIGHTS.spring else 0)
        + (if dem then WEIGHTS.demand else 0) + (if eff then WEIGHTS.effortResult else 0) := by
  unfold vsaScoreOf
  cases sv <;> cases ns <;> cases tst <;> cases sho <;> cases clim <;> cases spr <;>
    cases dem <;> cases eff <;> simp

/-- Per-bar output of the VSA loop body: the 8 pattern flags, the weighted
score, the composite trigger and the volume z-score. -/
structure VsaBarOut where
  stopping : Bool
  noSupply : Bool
  testBar : Bool
  shakeout : Bool
  climactic : Bool
  spring : Bool
  demand : Bool
  effortResult : Bool
  score : ℚ
  combined : ℚ
  volumeZ : ℚ

/-- A skipped bar: all flags false, score/combined/z zero (the preallocated
fill values, vsa.js lines 43–59). -/
def vsaZero : VsaBarOut :=
  ⟨false, false, false, false, false, false, false, false, 0, 0, 0⟩

/-- The main VSA loop body (vsa.js lines 61–145) for a bar that passed the
guards, with `hi`, `lo`, `cl`, `refOpen` already extracted. -/
def vsaMain (open_ high low close volume volMA volSD atrVals : List NumV)
    (i : Nat) (hi lo cl refOpen : ℚ) : VsaBarOut :=
  let rng := hi - lo
  let body := |cl - refOpen|
  let mid := lo + rng / 2
  let prevClose := close.getD (i - 1) none
  let prevOpen : NumV := match open_.getD (i - 1) none with
    | some po => some po
    | none => prevClose
  let prevHigh := high.getD (i - 1) none
  let prevLow := low.getD (i - 1) none
  let prevRange : NumV := match prevHigh, prevLow with
    | some ph, some pl => some (ph - pl)
    | _, _ => none
  let isDown := decide (cl < refOpen)
  let isUp := decide (refOpen < cl)
  let longLower := decide ((55 / 100 : ℚ) * rng < cl - lo)
  let narrow := if 0 < rng then decide (body / rng < (35 / 100 : ℚ)) else false
  let ultraNarrow := if 0 < rng then decide (body / rng < (2 / 10 : ℚ)) else false
  let ma := volMA.getD i none
  let sd := volSD.getD i none
  let atrVal := atrVals.getD i none
  let vol_i := volume.getD i none
  let hv := match ma with
    | some m => nle (some (m + finOr0 sd * (5 / 10))) vol_i
    | none => false
  let ultraHv := match ma with
    | some m => nle (some (m + finOr0 sd * (15 / 10))) vol_i
    | none => false
  let lv := match ma with
    | some m => nle vol_i (some (m * (75 / 100)))
    | none => false
  let ultraLv := match ma with
    | some m => nle vol_i (some (m * (55 / 100)))
    | none => false
  let z : NumV := match ma, sd with
    | some m, some sdv =>
      if 0 < sdv then (nsub vol_i (some m)).map (fun d => d / sdv)
      else if m ≠ 0 then vol_i.map (fun x => x / m - 1) else some 0
    | some m, none => if m ≠ 0 then vol_i.map (fun x => x / m - 1) else some 0
    | _, _ => some 0
  let volumeZ_i := finOr0 z
  let veryWide := match atrVal with
    | some a => decide (a * (14 / 10) ≤ rng)
    | none => decide (0 < rng)
  let closingStrong := decide (lo + (65 / 100) * rng ≤ cl)
  let smallResult := match prevClose with
    | some pc => decide (|cl - pc| ≤
        (match atrVal with | some a => a * (3 / 10) | none => rng * (3 / 10)))
    | none => false
  let downTrend := decide (3 ≤ i) &&
    (match close.getD (i - 1) none, close.getD (i - 2) none, close.getD (i - 3) none with
     | some c1, some c2, some c3 => decide (c1 ≤ c2) && decide (c2 ≤ c3)
     | _, _, _ => false)
  let pl2 : NumV := if 2 ≤ i then low.getD (i - 2) none else none
  let madeLowerLow := match prevLow, pl2 with
    | some a, some b => decide (lo < min a b)
    | some a, none => decide (lo < a)
    | none, some b => decide (lo < b)
    | none, none => true
  let sv := isDown && hv && decide (mid ≤ cl)
  let ns := (isDown || nle (some cl) prevClose) && (lv || ultraLv)
    && (narrow || ultraNarrow) && decide (cl ≤ lo + (25 / 100) * rng)
  let tst := (narrow || ultraNarrow) && (lv || ultraLv) && closingStrong
    && prevOpen.isSome && prevClose.isSome && nlt prevClose prevOpen
  let sho := (hv || ultraHv) && longLower && isUp && prevClose.isSome
    && nlt prevClose (some cl)
  let clim := ultraHv && isDown && closingStrong && veryWide
  let spr := (hv || ultraHv) && madeLowerLow && closingStrong && prevClose.isSome
    && nlt prevClose (some cl)
  let dem := (hv || ultraHv) && isUp && closingStrong && downTrend
    && prevClose.isSome && nlt prevClose (some cl)
    && (match prevRange with | some pr => decide (pr * (9 / 10) ≤ rng) | none => true)
  let eff := (hv || ultraHv) && isDown && closingStrong && smallResult
  ⟨sv, ns, tst, sho, clim, spr, dem, eff,
    vsaScoreOf sv ns tst sho clim spr dem eff,
    if ACTIVATION_SCORE ≤ vsaScoreOf sv ns tst sho clim spr dem eff then 1 else 0,
    volumeZ_i⟩

/-- One iteration of the VSA loop, including the guard/skip logic
(vsa.js lines 61–71). -/
def vsaBar (open_ high low close volume volMA volSD atrVals : List NumV)
    (i : Nat) : VsaBarOut :=
  if i = 0 then vsaZero
  else
    match high.getD i none, low.getD i none, close.getD i none with
    | some hi, some lo, some cl =>
      if hi - lo ≤ 0 then vsaZero
      else
        match (match open_.getD i none with
               | some x => some x
               | none => close.getD (i - 1) none) with
        | some refOpen => vsaMain open_ high low close volume volMA volSD atrVals i hi lo cl refOpen
        | none => vsaZero
    | _, _, _ => vsaZero

/-- Result record of `vsaSignals`; pattern arrays hold `0`/`1` as in the
source, `combined` is the composite trigger array. -/
structure VsaResult where
  combined : List ℚ
  score : List ℚ
  stopping : List ℚ
  noSupply : List ℚ
  testBar : List ℚ
  shakeout : List ℚ
  climactic : List ℚ
  spring : List ℚ
  demand : List ℚ
  effortResult : List ℚ
  volumeZ : List ℚ

def boolTo01 (b : Bool) : ℚ := if b then 1 else 0

def vsaSignals (open_ high low close volume : List NumV) (window : Nat) : VsaResult :=
  let volMA := sma volume window
  let volSD := std volume window
  let atrVals := atr high low close (max 5 ((window + 1) / 2))
  let bar := vsaBar open_ high low close volume volMA volSD atrVals
  let n := close.length
  { combined := (List.range n).map (fun i => (bar i).combined),
    score := (List.range n).map (fun i => (bar i).score),
    stopping := (List.range n).map (fun i => boolTo01 (bar i).stopping),
    noSupply := (List.range n).map (fun i => boolTo01 (bar i).noSupply),
    testBar := (List.range n).map (fun i => boolTo01 (bar i).testBar),
    shakeout := (List.range n).map (fun i => boolTo01 (bar i).shakeout),
    climactic := (List.range n).map (fun i => boolTo01 (bar i).climactic),
    spring := (List.range n).map (fun i => boolTo01 (bar i).spring),
    demand := (List.range n).map (fun i => boolTo01 (bar i).demand),
    effortResult := (List.range n).map (fun i => boolTo01 (bar i).effortResult),
    volumeZ := (List.range n).map (fun i => (bar i).volumeZ) }

/-- Every bar output of the VSA loop — skipped or not — carries a score that
is the `vsaScoreOf` chain of its own flags, and a combined trigger that is the
thresholded score. -/
lemma vsaBar_coherent (open_ high low close volume volMA volSD atrVals : List NumV)
    (i : Nat) :
    (vsaBar open_ high low close volume volMA volSD atrVals i).score
        = vsaScoreOf (vsaBar open_ high low close volume volMA volSD atrVals i).stopping
            (vsaBar open_ high low close volume volMA volSD atrVals i).noSupply
            (vsaBar open_ high low close volume volMA volSD atrVals i).testBar
            (vsaBar open_ high low close volume volMA volSD atrVals i).shakeout
            (vsaBar open_ high low close volume volMA volSD atrVals i).climactic
            (vsaBar open_ high low close volume volMA volSD atrVals i).spring
            (vsaBar open_ high low close volume volMA volSD atrVals i).demand
            (vsaBar open_ high low close volume volMA volSD atrVals i).effortResult ∧
      (vsaBar open_ high low close volume volMA volSD atrVals i).combined
        = (if ACTIVATION_SCORE ≤ (vsaBar open_ high low close volume volMA volSD atrVals i).score
           then 1 else 0) := by
  have hzero : vsaZero.score = vsaScoreOf vsaZero.stopping vsaZero.noSupply vsaZero.testBar
      vsaZero.shakeout vsaZero.climactic vsaZero.spring vsaZero.demand vsaZero.effortResult ∧
      vsaZero.combined = (if ACTIVATION_SCORE ≤ vsaZero.score then 1 else 0) := by
    constructor
    · norm_num [vsaZero, vsaScoreOf]
    · norm_num [vsaZero, ACTIVATION_SCORE]
  unfold vsaBar
  split
  · exact hzero
  split
  · split
    · exact hzero
    split
    · exact ⟨rfl, rfl⟩
    · exact hzero
  · exact hzero

lemma mul_boolTo01 (w : ℚ) (b : Bool) : w * boolTo01 b = if b then w else 0 := by
  cases b <;> simp [boolTo01]

lemma vsaSignals_getD (open_ high low close volume : List NumV) (window i : Nat)
    (hi : i < close.length) :
    (vsaSignals open_ high low close volume window).combined.getD i 0
        = (vsaBar open_ high low close volume (sma volume window) (std volume window)
            (atr high low close (max 5 ((window + 1) / 2))) i).combined ∧
      (vsaSignals open_ high low close volume window).score.getD i 0
        = (vsaBar open_ high low close volume (sma volume window) (std volume window)
            (atr high low close (max 5 ((window + 1) / 2))) i).score ∧
      (vsaSignals open_ high low close volume window).stopping.getD i 0
        = boolTo01 (vsaBar open_ high low close volume (sma volume window) (std volume window)
            (atr high low close (max 5 ((window + 1) / 2))) i).stopping ∧
      (vsaSignals open_ high low close volume window).noSupply.getD i 0
        = boolTo01 (vsaBar open_ high low close volume (sma volume window) (std volume window)
            (atr high low close (max 5 ((window + 1) / 2))) i).noSupply ∧
      (vsaSignals open_ high low close volume window).testBar.getD i 0
        = boolTo01 (vsaBar open_ high low close volume (sma volume window) (std volume window)
            (atr high low close (max 5 ((window + 1) / 2))) i).testBar ∧
      (vsaSignals open_ high low close volume window).shakeout.getD i 0
        = boolTo01 (vsaBar open_ high low close volume (sma volume window) (std volume window)
            (atr high low close (max 5 ((window + 1) / 2))) i).shakeout ∧
      (vsaSignals open_ high low close volume window).climactic.getD i 0
        = boolTo01 (vsaBar open_ high low close volume (sma volume window) (std volume window)
            (atr high low close (max 5 ((window + 1) / 2))) i).climactic ∧
      (vsaSignals open_ high low close volume window).spring.getD i 0
        = boolTo01 (vsaBar open_ high low close volume (sma volume window) (std volume window)
            (atr high low close (max 5 ((window + 1) / 2))) i).spring ∧
      (vsaSignals open_ high low close volume window).demand.getD i 0
        = boolTo01 (vsaBar open_ high low close volume (sma volume window) (std volume window)
            (atr high low close (max 5 ((window + 1) / 2))) i).demand ∧
      (vsaSignals open_ high low close volume window).effortResult.getD i 0
        = boolTo01 (vsaBar open_ high low close volume (sma volume window) (std volume window)
            (atr high low close (max 5 ((window + 1) / 2))) i).effortResult := by
  unfold vsaSignals
  dsimp only
  exact ⟨getD_map_range _ _ _ _ hi, getD_map_range _ _ _ _ hi, getD_map_range _ _ _ _ hi,
    getD_map_range _ _ _ _ hi, getD_map_range _ _ _ _ hi, getD_map_range _ _ _ _ hi,
    getD_map_range _ _ _ _ hi, getD_map_range _ _ _ _ hi, getD_map_range _ _ _ _ hi,
    getD_map_range _ _ _ _ hi⟩

/-- **C4.** For every input series and every bar index `i`, the VSA composite
`combined[i]` equals `1` iff the sum of the fixed weights of the patterns
active at `i` is ≥ the activation constant `2.6`; the per-bar `score` equals
that weighted sum.  With the default weights, shakeout alone contributes
`2.2 < 2.6` (so such a bar does not activate), while shakeout together with
effortResult contributes `2.2 + 1.2 = 3.4 ≥ 2.6` (so such a bar activates). -/
theorem vsa_combined_iff_weight_sum (open_ high low close volume : List NumV)
    (window i : Nat) (hi : i < close.length) :
    ((vsaSignals open_ high low close volume window).combined.getD i 0 = 1 ↔
      ACTIVATION_SCORE ≤
        WEIGHTS.stopping * (vsaSignals open_ high low close volume window).stopping.getD i 0
        + WEIGHTS.noSupply * (vsaSignals open_ high low close volume window).noSupply.getD i 0
        + WEIGHTS.testBar * (vsaSignals open_ high low close volume window).testBar.getD i 0
        + WEIGHTS.shakeout * (vsaSignals open_ high low close volume window).shakeout.getD i 0
        + WEIGHTS.climactic * (vsaSignals open_ high low close volume window).climactic.getD i 0
        + WEIGHTS.spring * (vsaSignals open_ high low close volume window).spring.getD i 0
        + WEIGHTS.demand * (vsaSignals open_ high low close volume window).demand.getD i 0
        + WEIGHTS.effortResult
            * (vsaSignals open_ high low close volume window).effortResult.getD i 0) ∧
    (vsaSignals open_ high low close volume window).score.getD i 0 =
        WEIGHTS.stopping * (vsaSignals open_ high low close volume window).stopping.getD i 0
        + WEIGHTS.noSupply * (vsaSignals open_ high low close volume window).noSupply.getD i 0
        + WEIGHTS.testBar * (vsaSignals open_ high low close volume window).testBar.getD i 0
        + WEIGHTS.shakeout * (vsaSignals open_ high low close volume window).shakeout.getD i 0
        + WEIGHTS.climactic * (vsaSignals open_ high low close volume window).climactic.getD i 0
        + WEIGHTS.spring * (vsaSignals open_ high low close volume window).spring.getD i 0
        + WEIGHTS.demand * (vsaSignals open_ high low close volume window).demand.getD i 0
        + WEIGHTS.effortResult
            * (vsaSignals open_ high low close volume window).effortResult.getD i 0 ∧
    WEIGHTS.shakeout = 22 / 10 ∧ WEIGHTS.effortResult = 12 / 10 ∧
    ACTIVATION_SCORE = 26 / 10 ∧ WEIGHTS.shakeout < ACTIVATION_SCORE ∧
    ACTIVATION_SCORE ≤ WEIGHTS.shakeout + WEIGHTS.effortResult := by
  obtain ⟨e1, e2, e3, e4, e5, e6, e7, e8, e9, e10⟩ :=
    vsaSignals_getD open_ high low close volume window i hi
  have hco := vsaBar_coherent open_ high low close volume (sma volume window)
    (std volume window) (atr high low close (max 5 ((window + 1) / 2))) i
  have hsum : (vsaSignals open_ high low close volume window).score.getD i 0 =
      WEIGHTS.stopping * (vsaSignals open_ high low close volume window).stopping.getD i 0
      + WEIGHTS.noSupply * (vsaSignals open_ high low close volume window).noSupply.getD i 0
      + WEIGHTS.testBar * (vsaSignals open_ high low close volume window).testBar.getD i 0
      + WEIGHTS.shakeout * (vsaSignals open_ high low close volume window).shakeout.getD i 0
      + WEIGHTS.climactic * (vsaSignals open_ high low close volume window).climactic.getD i 0
      + WEIGHTS.spring * (vsaSignals open_ high low close volume window).spring.getD i 0
      + WEIGHTS.demand * (vsaSignals open_ high low close volume window).demand.getD i 0
      + WEIGHTS.effortResult
          * (vsaSignals open_ high low close volume window).effortResult.getD i 0 := by
    rw [e2, e3, e4, e5, e6, e7, e8, e9, e10, hco.1, vsaScoreOf_eq,
      mul_boolTo01, mul_boolTo01, mul_boolTo01, mul_boolTo01, mul_boolTo01,
      mul_boolTo01, mul_boolTo01, mul_boolTo01]
  refine ⟨?_, hsum, by norm_num [WEIGHTS], by norm_num [WEIGHTS],
    by norm_num [ACTIVATION_SCORE], by norm_num [WEIGHTS, ACTIVATION_SCORE],
    by norm_num [WEIGHTS, ACTIVATION_SCORE]⟩
  rw [← hsum, e1, hco.2, ← e2]
  constructor
  · intro h1
    by_contra hnot
    rw [if_neg hnot] at h1
    norm_num at h1
  · intro h1
    rw [if_pos h1]

/-- Witness for `vsa_combined_iff_weight_sum` at a concrete two-bar input. -/
theorem vsa_combined_iff_weight_sum_witness :
    1 < ([some 1, some 2] : List NumV).length ∧
      (((vsaSignals [some 1, some 1] [some 2, some 3] [some 0, some 0] [some 1, some 2]
          [some 5, some 5] 2).combined.getD 1 0 = 1 ↔
        ACTIVATION_SCORE ≤
          WEIGHTS.stopping * (vsaSignals [some 1, some 1] [some 2, some 3] [some 0, some 0]
            [some 1, some 2] [some 5, some 5] 2).stopping.getD 1 0
          + WEIGHTS.noSupply * (vsaSignals [some 1, some 1] [some 2, some 3] [some 0, some 0]
            [some 1, some 2] [some 5, some 5] 2).noSupply.getD 1 0
          + WEIGHTS.testBar * (vsaSignals [some 1, some 1] [some 2, some 3] [some 0, some 0]
            [some 1, some 2] [some 5, some 5] 2).testBar.getD 1 0
          + WEIGHTS.shakeout * (vsaSignals [some 1, some 1] [some 2, some 3] [some 0, some 0]
            [some 1, some 2] [some 5, some 5] 2).shakeout.getD 1 0
          + WEIGHTS.climactic * (vsaSignals [some 1, some 1] [some 2, some 3] [some 0, some 0]
            [some 1, some 2] [some 5, some 5] 2).climactic.getD 1 0
          + WEIGHTS.spring * (vsaSignals [some 1, some 1] [some 2, some 3] [some 0, some 0]
            [some 1, some 2] [some 5, some 5] 2).spring.getD 1 0
          + WEIGHTS.demand * (vsaSignals [some 1, some 1] [some 2, some 3] [some 0, some 0]
            [some 1, some 2] [some 5, some 5] 2).demand.getD 1 0
          + WEIGHTS.effortResult * (vsaSignals [some 1, some 1] [some 2, some 3] [some 0, some 0]
            [some 1, some 2] [some 5, some 5] 2).effortResult.getD 1 0) ∧
        (vsaSignals [some 1, some 1] [some 2, some 3] [some 0, some 0] [some 1, some 2]
            [some 5, some 5] 2).score.getD 1 0 =
          WEIGHTS.stopping * (vsaSignals [some 1, some 1] [some 2, some 3] [some 0, some 0]
            [some 1, some 2] [some 5, some 5] 2).stopping.getD 1 0
          + WEIGHTS.noSupply * (vsaSignals [some 1, some 1] [some 2, some 3] [some 0, some 0]
            [some 1, some 2] [some 5, some 5] 2).noSupply.getD 1 0
          + WEIGHTS.testBar * (vsaSignals [some 1, some 1] [some 2, some 3] [some 0, some 0]
            [some 1, some 2] [some 5, some 5] 2).testBar.getD 1 0
          + WEIGHTS.shakeout * (vsaSignals [some 1, some 1] [some 2, some 3] [some 0, some 0]
            [some 1, some 2] [some 5, some 5] 2).shakeout.getD 1 0
          + WEIGHTS.climactic * (vsaSignals [some 1, some 1] [some 2, some 3] [some 0, some 0]
            [some 1, some 2] [some 5, some 5] 2).climactic.getD 1 0
          + WEIGHTS.spring * (vsaSignals [some 1, some 1] [some 2, some 3] [some 0, some 0]
            [some 1, some 2] [some 5, some 5] 2).spring.getD 1 0
          + WEIGHTS.demand * (vsaSignals [some 1, some 1] [some 2, some 3] [some 0, some 0]
            [some 1, some 2] [some 5, some 5] 2).demand.getD 1 0
          + WEIGHTS.effortResult * (vsaSignals [some 1, some 1] [some 2, some 3] [some 0, some 0]
            [some 1, some 2] [some 5, some 5] 2).effortResult.getD 1 0 ∧
        WEIGHTS.shakeout = 22 / 10 ∧ WEIGHTS.effortResult = 12 / 10 ∧
        ACTIVATION_SCORE = 26 / 10 ∧ WEIGHTS.shakeout < ACTIVATION_SCORE ∧
        ACTIVATION_SCORE ≤ WEIGHTS.shakeout + WEIGHTS.effortResult) :=
  ⟨by decide,
    vsa_combined_iff_weight_sum [some 1, some 1] [some 2, some 3] [some 0, some 0]
      [some 1, some 2] [some 5, some 5] 2 1 (by decide)⟩

/-! ## `scoreBar` — src/engine/score.js (identical absolute-override and
blending logic is inlined in App.jsx lines 338–366; the App copy differs only
in deriving the VSA activity from `vsaScore` when present).

```js
export function scoreBar(i, ctx){
  if (ctx.piBuy[i] || ctx.mvrvzBuy[i]) return { confidence: ABSOLUTE_CAP, parts: null };
  const parts = {}; let raw = 0; let maxRaw = 0;
  const add = (k, active, w) => { const v = active ? w : 0; raw += v; maxRaw += w; parts[k] = v; };
  add("bollinger", ctx.touchLower[i], ctx.weights.bollinger);
  add("macd",      ctx.macdCross[i],  ctx.weights.macd);
  const r = ctx.rsi[i];
  if (Number.isFinite(r)){
    if (r <= 10)      add("rsi", true, ctx.weights.rsi10);
    else if (r <= 20) add("rsi", true, ctx.weights.rsi20);
    else if (r <= 30) add("rsi", true, ctx.weights.rsi30);
    else parts["rsi"] = 0;
  } else { parts["rsi"] = 0; }
  add("vsa",       ctx.vsa[i] === 1,  ctx.weights.vsa);
  add("smaStack",  ctx.smaStack[i],   ctx.weights.smaStack);
  add("prevLowUp", ctx.prevLowUp[i],  ctx.weights.prevLowUp);
  add("piDeep",    ctx.piDeep[i],     ctx.weights.piDeep);
  const confidence = maxRaw === 0 ? 0 : Math.min(BLENDED_CAP, (raw / maxRaw) * BLENDED_CAP);
  return { confidence, parts };
}
```

Note the `add` helper adds the weight to `maxRaw` unconditionally *per call*,
but for the RSI band it is only called when a tier matches (with
`active = true`), so `raw` and `maxRaw` receive the same tier weight and
neither receives anything when no tier matches. -/
def ABSOLUTE_CAP : ℚ := 100

def BLENDED_CAP : ℚ := 999 / 10

structure Weights where
  bollinger : ℚ
  macd : ℚ
  vsa : ℚ
  smaStack : ℚ
  prevLowUp : ℚ
  rsi10 : ℚ
  rsi20 : ℚ
  rsi30 : ℚ
  piDeep : ℚ

structure ScoreCtx where
  piBuy : List Bool
  mvrvzBuy : List Bool
  touchLower : List Bool
  macdCross : List Bool
  rsi : List NumV
  vsa : List ℚ
  smaStack : List Bool
  prevLowUp : List Bool
  piDeep : List Bool
  weights : Weights

/-- The `parts` contribution record (component name → contributed weight). -/
structure ScoreParts where
  bollinger : ℚ
  macd : ℚ
  rsi : ℚ
  vsa : ℚ
  smaStack : ℚ
  prevLowUp : ℚ
  piDeep : ℚ

structure ScoreResult where
  confidence : ℚ
  parts : Option ScoreParts

/-- The weight the RSI tier test contributes (to both accumulators):
the first matching tier's weight, `0` when the value is not finite or no
tier matches. -/
def rsiTierHit (w : Weights) (r : NumV) : ℚ :=
  match r with
  | some x =>
    if x ≤ 10 then w.rsi10 else if x ≤ 20 then w.rsi20 else if x ≤ 30 then w.rsi30 else 0
  | none => 0

def scoreBar (i : Nat) (ctx : ScoreCtx) : ScoreResult :=
  if ctx.piBuy.getD i false || ctx.mvrvzBuy.getD i false then
    { confidence := ABSOLUTE_CAP, parts := none }
  else
    let w := ctx.weights
    let vBollinger := if ctx.touchLower.getD i false then w.bollinger else 0
    let vMacd := if ctx.macdCross.getD i false then w.macd else 0
    let vRsi := rsiTierHit w (ctx.rsi.getD i none)
    let vVsa := if ctx.vsa.getD i 0 = 1 then w.vsa else 0
    let vSmaStack := if ctx.smaStack.getD i false then w.smaStack else 0
    let vPrevLowUp := if ctx.prevLowUp.getD i false then w.prevLowUp else 0
    let vPiDeep := if ctx.piDeep.getD i false then w.piDeep else 0
    let raw := vBollinger + vMacd + vRsi + vVsa + vSmaStack + vPrevLowUp + vPiDeep
    let maxRaw := w.bollinger + w.macd + vRsi + w.vsa + w.smaStack + w.prevLowUp + w.piDeep
    { confidence := if maxRaw = 0 then 0 else min BLENDED_CAP (raw / maxRaw * BLENDED_CAP),
      parts := some ⟨vBollinger, vMacd, vRsi, vVsa, vSmaStack, vPrevLowUp, vPiDeep⟩ }

/-- App.jsx lines 599–600: the per-row confidence loop over `n = visRows.length`. -/
def confidenceSeries (n : Nat) (ctx : ScoreCtx) : List ℚ :=
  (List.range n).map fun i => (scoreBar i ctx).confidence

/-- **C2.** If either absolute-override flag is set at `i`, `scoreBar`
returns exactly the absolute cap `100` with a null contribution breakdown,
for every weight configuration and regardless of all other signals. -/
theorem scoreBar_absolute_override (i : Nat) (ctx : ScoreCtx)
    (h : ctx.piBuy.getD i false = true ∨ ctx.mvrvzBuy.getD i false = true) :
    scoreBar i ctx = { confidence := 100, parts := none } ∧ ABSOLUTE_CAP = 100 := by
  refine ⟨?_, rfl⟩
  unfold scoreBar
  rcases h with h | h <;> rw [h] <;> simp [ABSOLUTE_CAP]

/-- Witness for `scoreBar_absolute_override` with `piBuy[0]` set and every
blending signal active. -/
theorem scoreBar_absolute_override_witness :
    (([true] : List Bool).getD 0 false = true ∨ ([false] : List Bool).getD 0 false = true) ∧
      scoreBar 0
        ⟨[true], [false], [true], [true], [some 5], [1], [true], [true], [true],
          ⟨1, 1, 1, 1, 1, 1, 1, 1, 1⟩⟩
        = { confidence := 100, parts := none } :=
  ⟨Or.inl (by decide),
    (scoreBar_absolute_override 0
      ⟨[true], [false], [true], [true], [some 5], [1], [true], [true], [true],
        ⟨1, 1, 1, 1, 1, 1, 1, 1, 1⟩⟩ (Or.inl (by decide))).1⟩

/-- **C3 (amended).** When neither override flag is set, `scoreBar`
accumulates, for each of the six non-RSI components (Bollinger touch, MACD
cross, VSA, smaStack, prevLowUp, piDeep), the component's weight into
`maxPossible` always and into `raw` only when its condition holds; the RSI
band contributes the first matching tier's weight to *both* accumulators and
— contrary to the claim as stated — contributes nothing to `maxPossible`
when the RSI value is above 30 or not finite.  Confidence is `0` when
`maxPossible = 0` and `min(99.9, raw/maxPossible · 99.9)` otherwise, and the
contribution breakdown records each component's raw contribution. -/
theorem scoreBar_accumulation (i : Nat) (ctx : ScoreCtx)
    (hb : ctx.piBuy.getD i false = false) (hm : ctx.mvrvzBuy.getD i false = false) :
    (scoreBar i ctx).confidence =
      (if ctx.weights.bollinger + ctx.weights.macd + rsiTierHit ctx.weights (ctx.rsi.getD i none)
          + ctx.weights.vsa + ctx.weights.smaStack + ctx.weights.prevLowUp
          + ctx.weights.piDeep = 0 then 0
       else min BLENDED_CAP
        (((if ctx.touchLower.getD i false then ctx.weights.bollinger else 0)
          + (if ctx.macdCross.getD i false then ctx.weights.macd else 0)
          + rsiTierHit ctx.weights (ctx.rsi.getD i none)
          + (if ctx.vsa.getD i 0 = 1 then ctx.weights.vsa else 0)
          + (if ctx.smaStack.getD i false then ctx.weights.smaStack else 0)
          + (if ctx.prevLowUp.getD i false then ctx.weights.prevLowUp else 0)
          + (if ctx.piDeep.getD i false then ctx.weights.piDeep else 0))
         / (ctx.weights.bollinger + ctx.weights.macd
            + rsiTierHit ctx.weights (ctx.rsi.getD i none) + ctx.weights.vsa
            + ctx.weights.smaStack + ctx.weights.prevLowUp + ctx.weights.piDeep)
         * BLENDED_CAP)) ∧
    (scoreBar i ctx).parts = some
      { bollinger := if ctx.touchLower.getD i false then ctx.weights.bollinger else 0,
        macd := if ctx.macdCross.getD i false then ctx.weights.macd else 0,
        rsi := rsiTierHit ctx.weights (ctx.rsi.getD i none),
        vsa := if ctx.vsa.getD i 0 = 1 then ctx.weights.vsa else 0,
        smaStack := if ctx.smaStack.getD i false then ctx.weights.smaStack else 0,
        prevLowUp := if ctx.prevLowUp.getD i false then ctx.weights.prevLowUp else 0,
        piDeep := if ctx.piDeep.getD i false then ctx.weights.piDeep else 0 } := by
  unfold scoreBar
  rw [hb, hm]
  exact ⟨rfl, rfl⟩

/-- Witness for `scoreBar_accumulation`: with unit weights, only the
Bollinger condition active and RSI = 50 (no tier), the code's confidence is
`min(99.9, (1/6)·99.9) = 999/60` — the RSI weight is absent from the
denominator. -/
theorem scoreBar_accumulation_witness :
    (([false] : List Bool).getD 0 false = false) ∧
      (scoreBar 0
        ⟨[false], [false], [true], [false], [some 50], [0], [false], [false], [false],
          ⟨1, 1, 1, 1, 1, 1, 1, 1, 1⟩⟩).confidence = 999 / 60 := by
  refine ⟨by decide, ?_⟩
  have h := (scoreBar_accumulation 0
    ⟨[false], [false], [true], [false], [some 50], [0], [false], [false], [false],
      ⟨1, 1, 1, 1, 1, 1, 1, 1, 1⟩⟩ (by decide) (by decide)).1
  rw [h]
  norm_num [rsiTierHit, BLENDED_CAP, min_def]

/-- The scorer the C3 claim describes, modelled from the claim's words: every
component's configured weight — the RSI band's included — enters
`maxPossible` ALWAYS, and `raw` only when the component's condition holds.
When no RSI tier matches, the tier weight that "always" enters `maxPossible`
is taken to be `rsi30`; at the counterexample input all three RSI weights are
equal, so this disambiguation is immaterial. -/
def scoreBarClaimC3 (i : Nat) (ctx : ScoreCtx) : ScoreResult :=
  if ctx.piBuy.getD i false || ctx.mvrvzBuy.getD i false then
    { confidence := ABSOLUTE_CAP, parts := none }
  else
    let w := ctx.weights
    let vBollinger := if ctx.touchLower.getD i false then w.bollinger else 0
    let vMacd := if ctx.macdCross.getD i false then w.macd else 0
    let vRsi := rsiTierHit w (ctx.rsi.getD i none)
    let mRsi : ℚ := match ctx.rsi.getD i none with
      | some x => if x ≤ 10 then w.rsi10 else if x ≤ 20 then w.rsi20
                  else if x ≤ 30 then w.rsi30 else w.rsi30
      | none => w.rsi30
    let vVsa := if ctx.vsa.getD i 0 = 1 then w.vsa else 0
    let vSmaStack := if ctx.smaStack.getD i false then w.smaStack else 0
    let vPrevLowUp := if ctx.prevLowUp.getD i false then w.prevLowUp else 0
    let vPiDeep := if ctx.piDeep.getD i false then w.piDeep else 0
    let raw := vBollinger + vMacd + vRsi + vVsa + vSmaStack + vPrevLowUp + vPiDeep
    let maxRaw := w.bollinger + w.macd + mRsi + w.vsa + w.smaStack + w.prevLowUp + w.piDeep
    { confidence := if maxRaw = 0 then 0 else min BLENDED_CAP (raw / maxRaw * BLENDED_CAP),
      parts := some ⟨vBollinger, vMacd, vRsi, vVsa, vSmaStack, vPrevLowUp, vPiDeep⟩ }

/-- **C3 counterexample.** With unit weights, only the Bollinger condition
active and RSI = 50 (finite, above every tier), the code returns
`min(99.9, (1/6)·99.9) = 999/60 = 16.65`, while the claim's rule —
the RSI weight entering `maxPossible` always — predicts
`(1/7)·99.9 = 999/70 ≈ 14.27`.  The claim's "into maxPossible always" is
false on the code. -/
theorem scoreBar_rsi_not_always_in_max :
    (scoreBar 0
        ⟨[false], [false], [true], [false], [some 50], [0], [false], [false], [false],
          ⟨1, 1, 1, 1, 1, 1, 1, 1, 1⟩⟩).confidence = 999 / 60 ∧
      (scoreBarClaimC3 0
        ⟨[false], [false], [true], [false], [some 50], [0], [false], [false], [false],
          ⟨1, 1, 1, 1, 1, 1, 1, 1, 1⟩⟩).confidence = 999 / 70 ∧
      (999 : ℚ) / 60 ≠ 999 / 70 := by
  refine ⟨?_, ?_, by norm_num⟩
  · show (if (false : Bool) || (false : Bool) then _ else _ : ScoreResult).confidence = _
    norm_num [rsiTierHit, BLENDED_CAP, min_def]
  · show (if (false : Bool) || (false : Bool) then _ else _ : ScoreResult).confidence = _
    norm_num [rsiTierHit, BLENDED_CAP, min_def]

/-! ## `resampleDaily` — src/data/resample.js lines 4–42 (same `rowToDay`
logic inlined in App.jsx lines 386–406), and `expandDaily` —
src/indicators/daily.js lines 86–88

`dayKey` models `Date.UTC(d.getUTCFullYear(), d.getUTCMonth(), d.getUTCDate())`:
UTC midnight of the bar's day, i.e. the timestamp floored to a multiple of
86 400 000 ms (App.jsx computes it as `Math.floor(ts / MS_PER_DAY) * MS_PER_DAY`
directly).  (`Int./` is floor division for this positive divisor.) -/
def MS_PER_DAY : Int := 86400000

def dayKey (ms : Int) : Int := ms / MS_PER_DAY * MS_PER_DAY

/-- A validated input row (§6: OHLCV finite, timestamp in epoch ms).
`opn` is the source's `open`, which is a reserved word in Lean. -/
structure Row where
  ts : Int
  opn : ℚ
  high : ℚ
  low : ℚ
  close : ℚ
  volume : ℚ
deriving Inhabited

structure DailyBar where
  ts : Int
  opn : ℚ
  high : ℚ
  low : ℚ
  close : ℚ
  volume : ℚ
deriving Inhabited

/-- The loop state of `resampleDaily`: current bucket key, the open bucket's
OHLCV accumulators `o h l c v`, the running `dayIndex`, and the `out` /
`rowToDay` arrays built so far. -/
structure RDState where
  curKey : Int
  o : ℚ
  h : ℚ
  l : ℚ
  c : ℚ
  v : ℚ
  dayIndex : Nat
  out : List DailyBar
  rowToDay : List Nat

/-- `push()` of the source: the open bucket as a DailyBar. -/
def rdFlush (st : RDState) : DailyBar := ⟨st.curKey, st.o, st.h, st.l, st.c, st.v⟩

/-- One iteration of the `resampleDaily` loop: close the bucket when the day
key changes, then record the map entry and merge the row
(`if (r.high > h) h = r.high` is `max`, volumes here are finite so the
`Number.isFinite` guard is the identity). -/
def rdStep (st : RDState) (r : Row) : RDState :=
  let k := dayKey r.ts
  let st :=
    if k ≠ st.curKey then
      { curKey := k, o := r.opn, h := r.high, l := r.low, c := r.close, v := 0,
        dayIndex := st.dayIndex + 1, out := st.out ++ [rdFlush st],
        rowToDay := st.rowToDay }
    else st
  { st with rowToDay := st.rowToDay ++ [st.dayIndex],
            h := max st.h r.high,
            l := min st.l r.low,
            c := r.close,
            v := st.v + r.volume }

def resampleDaily (rows : List Row) : List DailyBar × List Nat :=
  match rows with
  | [] => ([], [])
  | r0 :: _ =>
    let st := rows.foldl rdStep
      ⟨dayKey r0.ts, r0.opn, r0.high, r0.low, r0.close, 0, 0, [], []⟩
    (st.out ++ [rdFlush st], st.rowToDay)

/-- `expandDaily` — `rowToDay.map(dIdx => arrDaily[dIdx])`; out-of-range JS
indexing yields `undefined`, modelled by `Option`. -/
def expandDaily {α : Type*} (arrDaily : List α) (rowToDay : List Nat) :
    List (Option α) :=
  rowToDay.map (fun dIdx => arrDaily[dIdx]?)

lemma dayKey_mono {a b : Int} (hab : a ≤ b) : dayKey a ≤ dayKey b := by
  unfold dayKey MS_PER_DAY
  have h := Int.ediv_le_ediv (by norm_num : (0 : Int) < 86400000) hab
  nlinarith

/-- The loop invariant of `resampleDaily` relative to the processed prefix
`P`: lengths agree, the map is monotone from 0 and bounded by `dayIndex`,
entries pointing to closed buckets find their day key in `out`, rows of the
open bucket carry `curKey`, and `curKey` is the last processed row's key. -/
def RDInv (P : List Row) (st : RDState) : Prop :=
  st.rowToDay.length = P.length ∧
  st.out.length = st.dayIndex ∧
  (∀ j k, j ≤ k → k < P.length → st.rowToDay.getD j 0 ≤ st.rowToDay.getD k 0) ∧
  (P ≠ [] → st.rowToDay.getD 0 0 = 0) ∧
  (∀ j, j < P.length → st.rowToDay.getD j 0 ≤ st.dayIndex) ∧
  (∀ j, j < P.length →
    (st.rowToDay.getD j 0 < st.dayIndex →
      (st.out.getD (st.rowToDay.getD j 0) default).ts = dayKey (P.getD j default).ts) ∧
    (st.rowToDay.getD j 0 = st.dayIndex →
      st.curKey = dayKey (P.getD j default).ts)) ∧
  (∀ r, P.getLast? = some r → st.curKey = dayKey r.ts) ∧
  (P = [] → st.dayIndex = 0)

lemma rdStep_new (st : RDState) (r : Row) (hk : dayKey r.ts ≠ st.curKey) :
    rdStep st r =
      { curKey := dayKey r.ts, o := r.opn, h := max r.high r.high,
        l := min r.low r.low, c := r.close, v := 0 + r.volume,
        dayIndex := st.dayIndex + 1, out := st.out ++ [rdFlush st],
        rowToDay := st.rowToDay ++ [st.dayIndex + 1] } := by
  simp only [rdStep]
  rw [if_pos hk]

lemma rdStep_same (st : RDState) (r : Row) (hk : ¬ dayKey r.ts ≠ st.curKey) :
    rdStep st r =
      { curKey := st.curKey, o := st.o, h := max st.h r.high,
        l := min st.l r.low, c := r.close, v := st.v + r.volume,
        dayIndex := st.dayIndex, out := st.out,
        rowToDay := st.rowToDay ++ [st.dayIndex] } := by
  simp only [rdStep]
  rw [if_neg hk]

lemma getD_concat_last {α : Type*} (l : List α) (x : α) (d : α) :
    (l ++ [x]).getD l.length d = x := by
  rw [List.getD_append_right _ _ _ _ le_rfl]
  simp

lemma rdStep_inv (P : List Row) (st : RDState) (r : Row)
    (hinv : RDInv P st)
    (hP0 : P = [] → st.curKey = dayKey r.ts) :
    RDInv (P ++ [r]) (rdStep st r) := by
  obtain ⟨hlen, hout, hmono, hzero, hbound, hbucket, hlast, hemp⟩ := hinv
  by_cases hk : dayKey r.ts ≠ st.curKey
  · -- the day key changed: the open bucket is pushed and a new one opened
    have hPne : P ≠ [] := fun hPe => hk (hP0 hPe).symm
    have hP0' : 0 < P.length := List.length_pos.mpr hPne
    rw [rdStep_new st r hk]
    unfold RDInv
    dsimp only
    refine ⟨by simp [hlen], by simp [hout], ?_, ?_, ?_, ?_, ?_, by simp⟩
    · intro j k hjk hk'
      simp only [List.length_append, List.length_singleton] at hk'
      rcases lt_or_ge k P.length with hkP | hkP
      · rw [List.getD_append _ _ _ _ (by omega), List.getD_append _ _ _ _ (by omega)]
        exact hmono j k hjk hkP
      · have hgk : (st.rowToDay ++ [st.dayIndex + 1]).getD k 0 = st.dayIndex + 1 := by
          rw [show k = st.rowToDay.length by omega]
          exact getD_concat_last _ _ _
        rw [hgk]
        rcases lt_or_ge j P.length with hj | hj
        · rw [List.getD_append _ _ _ _ (by omega)]
          have := hbound j hj
          omega
        · have hgj : (st.rowToDay ++ [st.dayIndex + 1]).getD j 0 = st.dayIndex + 1 := by
            rw [show j = st.rowToDay.length by omega]
            exact getD_concat_last _ _ _
          rw [hgj]
    · intro _
      rw [List.getD_append _ _ _ _ (by omega)]
      exact hzero hPne
    · intro j hj
      simp only [List.length_append, List.length_singleton] at hj
      rcases lt_or_ge j P.length with hj' | hj'
      · rw [List.getD_append _ _ _ _ (by omega)]
        have := hbound j hj'
        omega
      · have hgj : (st.rowToDay ++ [st.dayIndex + 1]).getD j 0 = st.dayIndex + 1 := by
          rw [show j = st.rowToDay.length by omega]
          exact getD_concat_last _ _ _
        rw [hgj]
    · intro j hj
      simp only [List.length_append, List.length_singleton] at hj
      rcases lt_or_ge j P.length with hj' | hj'
      · have hgj : (st.rowToDay ++ [st.dayIndex + 1]).getD j 0 = st.rowToDay.getD j 0 :=
          List.getD_append _ _ _ _ (by omega)
        have hPj : (P ++ [r]).getD j default = P.getD j default :=
          List.getD_append _ _ _ _ (by omega)
        rw [hgj, hPj]
        have hd := hbound j hj'
        constructor
        · intro _
          rcases lt_or_eq_of_le hd with hd' | hd'
          · rw [List.getD_append _ _ _ _ (by omega)]
            exact (hbucket j hj').1 hd'
          · have hgout : (st.out ++ [rdFlush st]).getD (st.rowToDay.getD j 0) default
                = rdFlush st := by
              rw [show st.rowToDay.getD j 0 = st.out.length by omega]
              exact getD_concat_last _ _ _
            rw [hgout]
            exact (hbucket j hj').2 hd'
        · intro habs
          omega
      · have hgj : (st.rowToDay ++ [st.dayIndex + 1]).getD j 0 = st.dayIndex + 1 := by
          rw [show j = st.rowToDay.length by omega]
          exact getD_concat_last _ _ _
        have hPj : (P ++ [r]).getD j default = r := by
          rw [show j = P.length by omega]
          exact getD_concat_last _ _ _
        rw [hgj, hPj]
        exact ⟨fun habs => absurd habs (by omega), fun _ => rfl⟩
    · intro rr hrr
      rw [List.getLast?_concat] at hrr
      injection hrr with hrr
      subst hrr
      rfl
  · -- same day: the row is merged into the open bucket
    push_neg at hk
    rw [rdStep_same st r (not_ne_iff.mpr hk)]
    unfold RDInv
    dsimp only
    refine ⟨by simp [hlen], hout, ?_, ?_, ?_, ?_, ?_, by simp⟩
    · intro j k hjk hk'
      simp only [List.length_append, List.length_singleton] at hk'
      rcases lt_or_ge k P.length with hkP | hkP
      · rw [List.getD_append _ _ _ _ (by omega), List.getD_append _ _ _ _ (by omega)]
        exact hmono j k hjk hkP
      · have hgk : (st.rowToDay ++ [st.dayIndex]).getD k 0 = st.dayIndex := by
          rw [show k = st.rowToDay.length by omega]
          exact getD_concat_last _ _ _
        rw [hgk]
        rcases lt_or_ge j P.length with hj | hj
        · rw [List.getD_append _ _ _ _ (by omega)]
          exact hbound j hj
        · have hgj : (st.rowToDay ++ [st.dayIndex]).getD j 0 = st.dayIndex := by
            rw [show j = st.rowToDay.length by omega]
            exact getD_concat_last _ _ _
          rw [hgj]
    · intro _
      rcases Nat.eq_zero_or_pos P.length with hP0' | hP0'
      · have hPe : P = [] := List.length_eq_zero.mp hP0'
        have hm : st.rowToDay = [] := List.length_eq_zero.mp (by omega)
        rw [hm]
        simpa using hemp hPe
      · rw [List.getD_append _ _ _ _ (by omega)]
        exact hzero (by intro hc; rw [hc] at hP0'; simp at hP0')
    · intro j hj
      simp only [List.length_append, List.length_singleton] at hj
      rcases lt_or_ge j P.length with hj' | hj'
      · rw [List.getD_append _ _ _ _ (by omega)]
        exact hbound j hj'
      · have hgj : (st.rowToDay ++ [st.dayIndex]).getD j 0 = st.dayIndex := by
          rw [show j = st.rowToDay.length by omega]
          exact getD_concat_last _ _ _
        rw [hgj]
    · intro j hj
      simp only [List.length_append, List.length_singleton] at hj
      rcases lt_or_ge j P.length with hj' | hj'
      · have hgj : (st.rowToDay ++ [st.dayIndex]).getD j 0 = st.rowToDay.getD j 0 :=
          List.getD_append _ _ _ _ (by omega)
        have hPj : (P ++ [r]).getD j default = P.getD j default :=
          List.getD_append _ _ _ _ (by omega)
        rw [hgj, hPj]
        exact hbucket j hj'
      · have hgj : (st.rowToDay ++ [st.dayIndex]).getD j 0 = st.dayIndex := by
          rw [show j = st.rowToDay.length by omega]
          exact getD_concat_last _ _ _
        have hPj : (P ++ [r]).getD j default = r := by
          rw [show j = P.length by omega]
          exact getD_concat_last _ _ _
        rw [hgj, hPj]
        exact ⟨fun habs => absurd habs (by omega), fun _ => hk.symm⟩
    · intro rr hrr
      rw [List.getLast?_concat] at hrr
      injection hrr with hrr
      subst hrr
      exact hk.symm

lemma rd_fold_inv (rem : List Row) :
    ∀ (P : List Row) (st : RDState),
      RDInv P st →
      (P = [] → ∀ r, rem.head? = some r → st.curKey = dayKey r.ts) →
      RDInv (P ++ rem) (rem.foldl rdStep st) := by
  induction rem with
  | nil =>
    intro P st hinv _
    simpa using hinv
  | cons r rem' ih =>
    intro P st hinv hP0
    have hstep := rdStep_inv P st r hinv (fun hPe => hP0 hPe r rfl)
    have := ih (P ++ [r]) (rdStep st r) hstep (by intro habs; exact absurd habs (by simp))
    rw [List.append_assoc] at this
    simpa using this

lemma getD_map_of_lt {α β : Type*} (f : α → β) (l : List α) (j : Nat) (d : β) (dd : α)
    (h : j < l.length) :
    (l.map f).getD j d = f (l.getD j dd) := by
  rw [List.getD_eq_getElem _ _ (by simpa using h), List.getElem_map,
    List.getD_eq_getElem _ _ h]

/-- **C7.** For every non-empty Bar sequence with strictly ascending
timestamps, `resampleDaily` produces a `rowToDay` map of the same length that
starts at 0, is monotonically non-decreasing, and indexes only valid daily
bars; the daily bar it selects for row `i` is the bucket of the UTC day
containing bar `i` (its `ts` is the row's UTC-midnight key), and `expandDaily`
of any equally long daily series therefore yields at row `i` exactly that
bucket's value. -/
theorem resampleDaily_expand_spec (rows : List Row) (hne : rows ≠ [])
    (hsort : List.Chain' (fun a b : Row => a.ts < b.ts) rows) :
    (resampleDaily rows).2.length = rows.length ∧
    (resampleDaily rows).2.getD 0 0 = 0 ∧
    (∀ j k, j ≤ k → k < rows.length →
      (resampleDaily rows).2.getD j 0 ≤ (resampleDaily rows).2.getD k 0) ∧
    (∀ j, j < rows.length →
      (resampleDaily rows).2.getD j 0 < (resampleDaily rows).1.length ∧
      ((resampleDaily rows).1.getD ((resampleDaily rows).2.getD j 0) default).ts
        = dayKey ((rows.getD j default).ts)) ∧
    (∀ (α : Type) (arr : List α), arr.length = (resampleDaily rows).1.length →
      ∀ j, j < rows.length →
        (expandDaily arr (resampleDaily rows).2).getD j none
            = arr[(resampleDaily rows).2.getD j 0]? ∧
          ((expandDaily arr (resampleDaily rows).2).getD j none).isSome = true) := by
  rcases hrows : rows with _ | ⟨r0, rest⟩
  · exact absurd hrows hne
  subst hrows
  set init : RDState := ⟨dayKey r0.ts, r0.opn, r0.high, r0.low, r0.close, 0, 0, [], []⟩
    with hinit
  have hinv0 : RDInv [] init := by
    refine ⟨rfl, rfl, ?_, ?_, ?_, ?_, ?_, fun _ => rfl⟩
    · intro j k _ hk
      simp at hk
    · intro h
      exact absurd rfl h
    · intro j hj
      simp at hj
    · intro j hj
      simp at hj
    · intro rr hrr
      simp at hrr
  have hinv := rd_fold_inv (r0 :: rest) [] init hinv0
    (by
      intro _ r hr
      injection hr with hr
      subst hr
      rfl)
  rw [List.nil_append] at hinv
  obtain ⟨hlen, hout, hmono, hzero, hbound, hbucket, hlast, hemp⟩ := hinv
  have hres : resampleDaily (r0 :: rest) =
      (((r0 :: rest).foldl rdStep init).out ++ [rdFlush ((r0 :: rest).foldl rdStep init)],
        ((r0 :: rest).foldl rdStep init).rowToDay) := by
    rfl
  set st := (r0 :: rest).foldl rdStep init with hst
  rw [hres]
  dsimp only
  have hdlen : (st.out ++ [rdFlush st]).length = st.dayIndex + 1 := by
    simp [hout]
  refine ⟨hlen, hzero (by simp), hmono, ?_, ?_⟩
  · intro j hj
    have hb := hbound j hj
    constructor
    · omega
    · rcases lt_or_eq_of_le hb with hb' | hb'
      · rw [List.getD_append _ _ _ _ (by omega)]
        exact (hbucket j hj).1 hb'
      · have hg : (st.out ++ [rdFlush st]).getD (st.rowToDay.getD j 0) default
            = rdFlush st := by
          rw [show st.rowToDay.getD j 0 = st.out.length by omega]
          exact getD_concat_last _ _ _
        rw [hg]
        exact (hbucket j hj).2 hb'
  · intro α arr harr j hj
    have hb := hbound j hj
    have hd : st.rowToDay.getD j 0 < arr.length := by
      rw [harr] at *
      omega
    have he : (expandDaily arr st.rowToDay).getD j none
        = arr[st.rowToDay.getD j 0]? := by
      unfold expandDaily
      exact getD_map_of_lt _ _ _ _ 0 (by omega)
    refine ⟨he, ?_⟩
    rw [he, List.getElem?_eq_getElem hd]
    rfl

/-- Witness for `resampleDaily_expand_spec`: three hourly rows, the first two
in one UTC day and the third in the next. -/
theorem resampleDaily_expand_spec_witness :
    ([⟨0, 1, 1, 1, 1, 1⟩, ⟨3600000, 1, 1, 1, 1, 1⟩, ⟨90000000, 1, 1, 1, 1, 1⟩] : List Row) ≠ [] ∧
    List.Chain' (fun a b : Row => a.ts < b.ts)
      [⟨0, 1, 1, 1, 1, 1⟩, ⟨3600000, 1, 1, 1, 1, 1⟩, ⟨90000000, 1, 1, 1, 1, 1⟩] ∧
    (resampleDaily
      [⟨0, 1, 1, 1, 1, 1⟩, ⟨3600000, 1, 1, 1, 1, 1⟩, ⟨90000000, 1, 1, 1, 1, 1⟩]).2.length
      = ([⟨0, 1, 1, 1, 1, 1⟩, ⟨3600000, 1, 1, 1, 1, 1⟩, ⟨90000000, 1, 1, 1, 1, 1⟩] : List Row).length ∧
    (resampleDaily
      [⟨0, 1, 1, 1, 1, 1⟩, ⟨3600000, 1, 1, 1, 1, 1⟩, ⟨90000000, 1, 1, 1, 1, 1⟩]).2.getD 0 0 = 0 :=
  ⟨by simp, by norm_num [List.chain'_cons],
    (resampleDaily_expand_spec
      [⟨0, 1, 1, 1, 1, 1⟩, ⟨3600000, 1, 1, 1, 1, 1⟩, ⟨90000000, 1, 1, 1, 1, 1⟩]
      (by simp) (by norm_num [List.chain'_cons])).1,
    (resampleDaily_expand_spec
      [⟨0, 1, 1, 1, 1, 1⟩, ⟨3600000, 1, 1, 1, 1, 1⟩, ⟨90000000, 1, 1, 1, 1, 1⟩]
      (by simp) (by norm_num [List.chain'_cons])).2.1⟩

/-! ## `aggregate4h` — src/data/resample.js (second variant, lines 50–99)

Fixed-width 4-hour buckets.  The bucket record is seeded from `rows[0]` —
*including its volume* — and the loop then starts at `i = 0`, whose iteration
falls into the merge branch and adds `rows[0].volume` again.  The caller-
supplied `extras` merge only writes auxiliary per-bucket display fields and
does not touch OHLCV; it is omitted here. -/
structure Bucket4h where
  ts : Int
  opn : ℚ
  high : ℚ
  low : ℚ
  close : ℚ
  volume : ℚ
deriving Inhabited

def FOUR_H : Int := 14400000

def a4Key (ts : Int) : Int := ts / FOUR_H * FOUR_H

def a4Step (st : Bucket4h × List Bucket4h) (r : Row) : Bucket4h × List Bucket4h :=
  if a4Key r.ts ≠ st.1.ts then
    (⟨a4Key r.ts, r.opn, r.high, r.low, r.close, r.volume⟩, st.2 ++ [st.1])
  else
    (⟨st.1.ts, st.1.opn, max st.1.high r.high, min st.1.low r.low, r.close,
        st.1.volume + r.volume⟩, st.2)

def aggregate4h (rows : List Row) : List Bucket4h :=
  match rows with
  | [] => []
  | r0 :: _ =>
    let st := rows.foldl a4Step
      (⟨a4Key r0.ts, r0.opn, r0.high, r0.low, r0.close, r0.volume⟩, [])
    st.2 ++ [st.1]

/-- **C8 (failing input).** Two rows in the same 4-hour bucket with volumes
5 and 3: `aggregate4h` returns a bucket volume of 13, because the first row's
volume is counted at bucket initialisation and again by the `i = 0` loop
iteration, whereas the claim requires the member-volume sum `5 + 3 = 8`. -/
theorem aggregate4h_first_volume_double_counted :
    aggregate4h [⟨0, 1, 1, 1, 1, 5⟩, ⟨3600000, 1, 1, 1, 1, 3⟩]
        = [⟨0, 1, 1, 1, 1, 13⟩] ∧
      (5 + 3 : ℚ) ≠ 13 := by
  constructor
  · norm_num [aggregate4h, a4Step, a4Key, FOUR_H]
  · norm_num

/-! ## Buy-event extraction — App.jsx lines 602–606

```js
// Buys with cooldown (first cross-up) (should not shift domain)
const cooldownMs = buyWindowHours*60*60*1000; const buys = []; let lastBuyTs = -Infinity;
for (let i=1;i<n;i++){
  const ts = visRows[i].ts;
  const cross = confidence[i]>=threshold && confidence[i-1]<threshold;
  if (cross && ts-lastBuyTs>=cooldownMs){ buys.push({ index:i, ts, conf: confidence[i], parts: partsArr[i] }); lastBuyTs = ts; }
}
```

The scan applies exactly two stateful rules — the strict rising edge and the
cooldown since the last *accepted* event (`lastBuyTs = -Infinity` initially,
so the first accepted event always passes).  There is no forward-window
local-maximum rule anywhere in the scan. -/
structure BuyEvent where
  index : Nat
  ts : Int
  conf : ℚ
deriving Inhabited

/-- The rising-edge test `confidence[i] >= threshold && confidence[i-1] < threshold`. -/
def crossUp (conf : List ℚ) (threshold : ℚ) (i : Nat) : Prop :=
  threshold ≤ conf.getD i 0 ∧ conf.getD (i - 1) 0 < threshold

instance (conf : List ℚ) (threshold : ℚ) (i : Nat) : Decidable (crossUp conf threshold i) :=
  inferInstanceAs (Decidable (_ ∧ _))

/-- `ts - lastBuyTs >= cooldownMs`; `none` is the initial `-Infinity`, against
which the test is always true. -/
def cooldownOk (cooldown t : Int) (last : Option Int) : Prop :=
  match last with
  | none => True
  | some t0 => cooldown ≤ t - t0

instance (cooldown t : Int) (last : Option Int) : Decidable (cooldownOk cooldown t last) :=
  match last with
  | none => isTrue trivial
  | some t0 => inferInstanceAs (Decidable (cooldown ≤ t - t0))

def buyStep (ts : List Int) (conf : List ℚ) (threshold : ℚ) (cooldown : Int)
    (st : List BuyEvent × Option Int) (i : Nat) : List BuyEvent × Option Int :=
  if crossUp conf threshold i ∧ cooldownOk cooldown (ts.getD i 0) st.2 then
    (st.1 ++ [⟨i, ts.getD i 0, conf.getD i 0⟩], some (ts.getD i 0))
  else st

def buyScanFull (ts : List Int) (conf : List ℚ) (threshold : ℚ) (cooldown : Int) :
    List BuyEvent × Option Int :=
  (List.range' 1 (ts.length - 1)).foldl (buyStep ts conf threshold cooldown) ([], none)

/-- The emitted buy list (`buys`). -/
def buyScan (ts : List Int) (conf : List ℚ) (threshold : ℚ) (cooldown : Int) :
    List BuyEvent :=
  (buyScanFull ts conf threshold cooldown).1

/-- Scan invariant after processing indices `< bound`: the cooldown state is
the last emitted timestamp, consecutive emissions have increasing indices and
cooldown-sized gaps, and every emitted event records a genuine rising edge. -/
def ScanInv (ts : List Int) (conf : List ℚ) (threshold : ℚ) (cooldown : Int)
    (bound : Nat) (st : List BuyEvent × Option Int) : Prop :=
  (st.2 = (st.1.getLast?).map (fun e => e.ts)) ∧
  List.Chain' (fun e1 e2 : BuyEvent => e1.index < e2.index ∧ cooldown ≤ e2.ts - e1.ts) st.1 ∧
  (∀ e ∈ st.1, 1 ≤ e.index ∧ e.index < bound ∧ e.ts = ts.getD e.index 0 ∧
    e.conf = conf.getD e.index 0 ∧ crossUp conf threshold e.index)

lemma scanInv_mono (ts : List Int) (conf : List ℚ) (threshold : ℚ) (cooldown : Int)
    {b b' : Nat} (hb : b ≤ b') (st : List BuyEvent × Option Int)
    (h : ScanInv ts conf threshold cooldown b st) :
    ScanInv ts conf threshold cooldown b' st := by
  obtain ⟨h1, h2, h3⟩ := h
  exact ⟨h1, h2, fun e he => by
    obtain ⟨a, b, c, d, f⟩ := h3 e he
    exact ⟨a, by omega, c, d, f⟩⟩

lemma buyStep_inv (ts : List Int) (conf : List ℚ) (threshold : ℚ) (cooldown : Int)
    (i : Nat) (hi : 1 ≤ i) (st : List BuyEvent × Option Int)
    (h : ScanInv ts conf threshold cooldown i st) :
    ScanInv ts conf threshold cooldown (i + 1)
      (buyStep ts conf threshold cooldown st i) := by
  obtain ⟨h1, h2, h3⟩ := h
  unfold buyStep
  split
  · next hcond =>
    refine ⟨by simp [List.getLast?_concat], ?_, ?_⟩
    · apply List.chain'_append.mpr
      refine ⟨h2, List.chain'_singleton _, ?_⟩
      intro x hx y hy
      have hx' : st.1.getLast? = some x := hx
      obtain ⟨hne, hxeq⟩ := List.mem_getLast?_eq_getLast hx
      have hmem : x ∈ st.1 := by rw [hxeq]; exact List.getLast_mem hne
      obtain ⟨he1, he2, he3, _, _⟩ := h3 x hmem
      have hcool : cooldown ≤ ts.getD i 0 - x.ts := by
        have hc := hcond.2
        rw [h1, hx'] at hc
        simpa [cooldownOk] using hc
      have hy2 : some (⟨i, ts.getD i 0, conf.getD i 0⟩ : BuyEvent) = some y := hy
      injection hy2 with hy3
      rw [← hy3]
      constructor
      · show x.index < i
        omega
      · show cooldown ≤ ts.getD i 0 - x.ts
        exact hcool
    · intro e he
      simp only [List.mem_append, List.mem_singleton] at he
      rcases he with he | he
      · obtain ⟨a, b, c, d, f⟩ := h3 e he
        exact ⟨a, by omega, c, d, f⟩
      · subst he
        exact ⟨hi, Nat.lt_succ_self i, rfl, rfl, hcond.1⟩
  · exact scanInv_mono ts conf threshold cooldown (by omega) st ⟨h1, h2, h3⟩

lemma buyScan_fold_inv (ts : List Int) (conf : List ℚ) (threshold : ℚ) (cooldown : Int) :
    ∀ (len a : Nat) (st : List BuyEvent × Option Int), 1 ≤ a →
      ScanInv ts conf threshold cooldown a st →
      ScanInv ts conf threshold cooldown (a + len)
        ((List.range' a len).foldl (buyStep ts conf threshold cooldown) st) := by
  intro len
  induction len with
  | zero => intro a st _ h; simpa using h
  | succ len ih =>
    intro a st ha h
    rw [List.range'_succ, List.foldl_cons]
    have h1 := buyStep_inv ts conf threshold cooldown a ha st h
    have := ih (a + 1) _ (by omega) h1
    rw [show a + 1 + len = a + (len + 1) by omega] at this
    exact this

lemma buyScan_inv (ts : List Int) (conf : List ℚ) (threshold : ℚ) (cooldown : Int) :
    ScanInv ts conf threshold cooldown (1 + (ts.length - 1))
      (buyScanFull ts conf threshold cooldown) := by
  unfold buyScanFull
  exact buyScan_fold_inv ts conf threshold cooldown (ts.length - 1) 1 ([], none) le_rfl
    ⟨rfl, List.chain'_nil, by simp⟩

lemma chain'_cooldown_pairwise (cooldown : Int) (hc : 0 ≤ cooldown) :
    ∀ (l : List BuyEvent),
      List.Chain' (fun e1 e2 : BuyEvent => e1.index < e2.index ∧ cooldown ≤ e2.ts - e1.ts) l →
      List.Pairwise (fun e1 e2 : BuyEvent => e1.index < e2.index ∧ cooldown ≤ e2.ts - e1.ts) l := by
  intro l
  induction l with
  | nil => intro _; exact List.Pairwise.nil
  | cons a l ih =>
    intro h
    rw [List.chain'_cons'] at h
    obtain ⟨hab, hl⟩ := h
    have hp := ih hl
    refine List.Pairwise.cons ?_ hp
    intro b hb
    rcases l with _ | ⟨c, l'⟩
    · simp at hb
    · have hac := hab c rfl
      rcases List.mem_cons.mp hb with rfl | hb'
      · exact hac
      · have hcb := (List.pairwise_cons.mp hp).1 b hb'
        exact ⟨by omega, by omega⟩

lemma buyScan_skip (ts : List Int) (conf : List ℚ) (threshold : ℚ) (cooldown : Int) :
    ∀ (len a : Nat) (st : List BuyEvent × Option Int),
      (∀ i, a ≤ i → i < a + len → ¬ crossUp conf threshold i) →
      (List.range' a len).foldl (buyStep ts conf threshold cooldown) st = st := by
  intro len
  induction len with
  | zero => intro a st _; rfl
  | succ len ih =>
    intro a st hno
    rw [List.range'_succ, List.foldl_cons]
    have hstep : buyStep ts conf threshold cooldown st a = st := by
      unfold buyStep
      rw [if_neg (fun hand => hno a le_rfl (by omega) hand.1)]
    rw [hstep]
    exact ih (a + 1) st (fun i h1 h2 => hno i (by omega) (by omega))

lemma buyScan_head_stable (ts : List Int) (conf : List ℚ) (threshold : ℚ) (cooldown : Int) :
    ∀ (l : List Nat) (st : List BuyEvent × Option Int), st.1 ≠ [] →
      ((l.foldl (buyStep ts conf threshold cooldown) st).1).head? = st.1.head? := by
  intro l
  induction l with
  | nil => intro st _; rfl
  | cons i l ih =>
    intro st hne
    rw [List.foldl_cons]
    have hcases : (buyStep ts conf threshold cooldown st i).1.head? = st.1.head? ∧
        (buyStep ts conf threshold cooldown st i).1 ≠ [] := by
      unfold buyStep
      split
      · rcases hst : st.1 with _ | ⟨a, t⟩
        · exact absurd hst hne
        · constructor
          · simp
          · simp
      · exact ⟨rfl, hne⟩
    rw [ih _ hcases.2, hcases.1]

/-- **C5 (amended).** With a nonnegative cooldown: (i) any two emitted
BuyEvents are at least the cooldown apart; (ii) the cooldown state the scan
consults is exactly the timestamp of the last *accepted* event — a rejected
candidate does not reset it; (iii) the first rising-edge candidate of the
series is always emitted (the initial `-Infinity` state passes the cooldown
test unconditionally).  Two candidates closer than the cooldown are therefore
never both emitted — but, contrary to the claim as stated, the *later* of two
such candidates can be the emitted one when the earlier was rejected against
a prior accepted event (see the counterexample). -/
theorem buyScan_cooldown_spec (ts : List Int) (conf : List ℚ) (threshold : ℚ)
    (cooldown : Int) (hc : 0 ≤ cooldown) :
    (∀ j k, j < k → k < (buyScan ts conf threshold cooldown).length →
      cooldown ≤ ((buyScan ts conf threshold cooldown).getD k default).ts
        - ((buyScan ts conf threshold cooldown).getD j default).ts) ∧
    ((buyScanFull ts conf threshold cooldown).2
      = ((buyScan ts conf threshold cooldown).getLast?).map (fun e => e.ts)) ∧
    (∀ i0, 1 ≤ i0 → i0 < ts.length → crossUp conf threshold i0 →
      (∀ j, 1 ≤ j → j < i0 → ¬ crossUp conf threshold j) →
      (buyScan ts conf threshold cooldown).head?
        = some ⟨i0, ts.getD i0 0, conf.getD i0 0⟩) := by
  obtain ⟨h1, h2, h3⟩ := buyScan_inv ts conf threshold cooldown
  refine ⟨?_, h1, ?_⟩
  · unfold buyScan
    intro j k hjk hk
    have hp := chain'_cooldown_pairwise cooldown hc _ h2
    rw [List.pairwise_iff_getElem] at hp
    have := hp j k (by omega) (by omega) hjk
    rw [List.getD_eq_getElem _ _ (by omega), List.getD_eq_getElem _ _ (by omega)]
    exact this.2
  · intro i0 h1i h2i hcross hfirst
    unfold buyScan buyScanFull
    have hsplit : List.range' 1 (i0 - 1) ++ List.range' i0 (ts.length - i0)
        = List.range' 1 (ts.length - 1) := by
      have hap := List.range'_append 1 (i0 - 1) (ts.length - i0) 1
      rw [show 1 + 1 * (i0 - 1) = i0 by omega] at hap
      rw [hap]
      congr 1
      omega
    rw [← hsplit, List.foldl_append]
    rw [buyScan_skip ts conf threshold cooldown (i0 - 1) 1 ([], none)
      (fun i ha hb => hfirst i ha (by omega))]
    obtain ⟨m, hm⟩ : ∃ m, ts.length - i0 = m + 1 := ⟨ts.length - i0 - 1, by omega⟩
    have hr : List.range' i0 (ts.length - i0) = i0 :: List.range' (i0 + 1) m := by
      rw [hm, List.range'_succ]
    rw [hr, List.foldl_cons]
    have hstep : buyStep ts conf threshold cooldown ([], none) i0
        = ([⟨i0, ts.getD i0 0, conf.getD i0 0⟩], some (ts.getD i0 0)) := by
      unfold buyStep
      rw [if_pos ⟨hcross, trivial⟩]
      rfl
    rw [hstep, buyScan_head_stable ts conf threshold cooldown _ _ (by simp)]
    rfl

/-- **C1 (amended).** The buy scan applies only the rising-edge and cooldown
rules — there is no forward-window local-maximum rule.  For a monotonically
increasing-then-decreasing confidence bump that crosses the threshold (and no
prior accepted event), exactly one BuyEvent is emitted, at the FIRST crossing
index — the least index with confidence ≥ threshold — which need not be the
bump's maximum. -/
theorem buyScan_bump_first_crossing (ts : List Int) (conf : List ℚ) (threshold : ℚ)
    (cooldown : Int) (p : Nat)
    (hp : p < ts.length)
    (hup : ∀ i j, i ≤ j → j ≤ p → conf.getD i 0 ≤ conf.getD j 0)
    (hdown : ∀ i j, p ≤ i → i ≤ j → j < ts.length → conf.getD j 0 ≤ conf.getD i 0)
    (h0 : conf.getD 0 0 < threshold)
    (hcrossp : threshold ≤ conf.getD p 0) :
    ∃ i0, 1 ≤ i0 ∧ i0 ≤ p ∧ threshold ≤ conf.getD i0 0 ∧
      (∀ j, j < i0 → conf.getD j 0 < threshold) ∧
      buyScan ts conf threshold cooldown = [⟨i0, ts.getD i0 0, conf.getD i0 0⟩] := by
  have hex : ∃ i, threshold ≤ conf.getD i 0 := ⟨p, hcrossp⟩
  obtain ⟨i0, hPi0, hminP, hleP⟩ :
      ∃ i0, threshold ≤ conf.getD i0 0 ∧ (∀ j, j < i0 → ¬ threshold ≤ conf.getD j 0) ∧
        ∀ m, threshold ≤ conf.getD m 0 → i0 ≤ m :=
    ⟨Nat.find hex, Nat.find_spec hex, fun j hj => Nat.find_min hex hj,
      fun m hm => Nat.find_min' hex hm⟩
  have hmin : ∀ j, j < i0 → conf.getD j 0 < threshold := by
    intro j hj
    exact lt_of_not_le (hminP j hj)
  have hle : i0 ≤ p := hleP p hcrossp
  have h1i : 1 ≤ i0 := by
    rcases Nat.eq_zero_or_pos i0 with h | h
    · rw [h] at hPi0
      linarith
    · exact h
  have hcross0 : crossUp conf threshold i0 := ⟨hPi0, hmin (i0 - 1) (by omega)⟩
  have hnocross : ∀ j, j ≠ i0 → j < ts.length → ¬ crossUp conf threshold j := by
    intro j hne hjlt hcr
    rcases lt_trichotomy j i0 with hj | hj | hj
    · exact absurd hcr.1 (not_le.mpr (hmin j hj))
    · exact hne hj
    · rcases le_or_lt j p with hjp | hjp
      · have : conf.getD i0 0 ≤ conf.getD (j - 1) 0 := hup i0 (j - 1) (by omega) (by omega)
        linarith [hcr.2]
      · have : conf.getD j 0 ≤ conf.getD (j - 1) 0 :=
          hdown (j - 1) j (by omega) (by omega) hjlt
        linarith [hcr.1, hcr.2]
  refine ⟨i0, h1i, hle, hPi0, hmin, ?_⟩
  unfold buyScan buyScanFull
  have hsplit : List.range' 1 (i0 - 1) ++ List.range' i0 (ts.length - i0)
      = List.range' 1 (ts.length - 1) := by
    have hap := List.range'_append 1 (i0 - 1) (ts.length - i0) 1
    rw [show 1 + 1 * (i0 - 1) = i0 by omega] at hap
    rw [hap]
    congr 1
    omega
  rw [← hsplit, List.foldl_append,
    buyScan_skip ts conf threshold cooldown (i0 - 1) 1 ([], none)
      (fun i _ hb => hnocross i (by omega) (by omega))]
  obtain ⟨m, hm⟩ : ∃ m, ts.length - i0 = m + 1 := ⟨ts.length - i0 - 1, by omega⟩
  have hr : List.range' i0 (ts.length - i0) = i0 :: List.range' (i0 + 1) m := by
    rw [hm, List.range'_succ]
  rw [hr, List.foldl_cons]
  have hstep : buyStep ts conf threshold cooldown ([], none) i0
      = ([⟨i0, ts.getD i0 0, conf.getD i0 0⟩], some (ts.getD i0 0)) := by
    unfold buyStep
    rw [if_pos ⟨hcross0, trivial⟩]
    rfl
  rw [hstep, buyScan_skip ts conf threshold cooldown m (i0 + 1) _
    (fun i ha hb => hnocross i (by omega) (by omega))]

/-- Witness for `buyScan_cooldown_spec`: a single rising edge at index 1 of a
3-bar series is emitted as the first event. -/
theorem buyScan_cooldown_spec_witness :
    (0 : Int) ≤ 7 ∧ (buyScan [0, 1, 2] [0, 60, 0] 50 7).head? = some ⟨1, 1, 60⟩ :=
  ⟨by norm_num, by
    have h := (buyScan_cooldown_spec [0, 1, 2] [0, 60, 0] 50 7 (by norm_num)).2.2 1
      (by norm_num) (by norm_num) (by constructor <;> norm_num [List.getD])
      (fun j hj1 hj2 => absurd hj2 (by omega))
    simpa [List.getD] using h⟩

/-- **C5 counterexample.** Threshold 50, cooldown 7, hourly timestamps
`0..8`, confidence `[0,60,0,60,0,0,0,0,60]`: rising-edge candidates occur at
indices 1, 3 and 8.  Index 1 is accepted; index 3 (ts 3) is rejected by the
cooldown from ts 1; index 8 (ts 8) is accepted.  Candidates 3 and 8 are
`5 < 7` apart, and it is the *later* one that is emitted — refuting "at most
the earlier one is emitted" for candidate pairs closer than the cooldown. -/
theorem buyScan_later_candidate_emitted :
    buyScan [0, 1, 2, 3, 4, 5, 6, 7, 8] [0, 60, 0, 60, 0, 0, 0, 0, 60] 50 7
        = [⟨1, 1, 60⟩, ⟨8, 8, 60⟩] ∧
      crossUp [0, 60, 0, 60, 0, 0, 0, 0, 60] 50 3 ∧
      crossUp [0, 60, 0, 60, 0, 0, 0, 0, 60] 50 8 ∧
      ((8 : Int) - 3 < 7) := by
  refine ⟨?_, ⟨by norm_num [List.getD], by norm_num [List.getD]⟩,
    ⟨by norm_num [List.getD], by norm_num [List.getD]⟩, by norm_num⟩
  norm_num [buyScan, buyScanFull, buyStep, crossUp, cooldownOk, List.range', List.getD]

/-- Witness for `buyScan_bump_first_crossing`: the bump `0,60,70,40` with
threshold 50 (peak at index 2) emits exactly one event, at index 1. -/
theorem buyScan_bump_first_crossing_witness :
    2 < ([0, 1, 2, 3] : List Int).length ∧
      (∃ i0, 1 ≤ i0 ∧ i0 ≤ 2 ∧ (50 : ℚ) ≤ ([0, 60, 70, 40] : List ℚ).getD i0 0 ∧
        (∀ j, j < i0 → ([0, 60, 70, 40] : List ℚ).getD j 0 < 50) ∧
        buyScan [0, 1, 2, 3] [0, 60, 70, 40] 50 0
          = [⟨i0, ([0, 1, 2, 3] : List Int).getD i0 0,
              ([0, 60, 70, 40] : List ℚ).getD i0 0⟩]) :=
  ⟨by decide,
    buyScan_bump_first_crossing [0, 1, 2, 3] [0, 60, 70, 40] 50 0 2 (by decide)
      (by intro i j hij hj; interval_cases j <;> interval_cases i <;> norm_num [List.getD])
      (by
        intro i j hi hij hj
        have hj4 : j < 4 := by simpa using hj
        interval_cases j <;> interval_cases i <;> norm_num [List.getD])
      (by norm_num [List.getD]) (by norm_num [List.getD])⟩

/-- **C1 counterexample.** On the increasing-then-decreasing bump
`0, 60, 70, 40` (hourly timestamps `0..3`, threshold 50, cooldown 0) the scan
emits exactly one BuyEvent, at index 1 — the first crossing — although bar 2
lies inside the forward window `[ts 1, ts 1 + 5]` (for window duration 5, and
any duration ≥ 1) with strictly greater confidence `70 > 60`, and the bump's
maximum is at index 2, not 1.  Both the local-maximum condition and
"at the bump's maximum" fail on the code. -/
theorem buyScan_emits_before_window_peak :
    buyScan [0, 1, 2, 3] [0, 60, 70, 40] 50 0 = [⟨1, 1, 60⟩] ∧
      ([0, 1, 2, 3] : List Int).getD 2 0 = 2 ∧
      ((1 : Int) ≤ 2 ∧ (2 : Int) ≤ 1 + 5) ∧
      ([0, 60, 70, 40] : List ℚ).getD 2 0 = 70 ∧
      (60 : ℚ) < 70 := by
  refine ⟨?_, by norm_num [List.getD], ⟨by norm_num, by norm_num⟩,
    by norm_num [List.getD], by norm_num⟩
  norm_num [buyScan, buyScanFull, buyStep, crossUp, cooldownOk, List.range', List.getD]

lemma vsaSignals_lengths (open_ high low close volume : List NumV) (window : Nat) :
    (vsaSignals open_ high low close volume window).combined.length = close.length ∧
    (vsaSignals open_ high low close volume window).score.length = close.length ∧
    (vsaSignals open_ high low close volume window).stopping.length = close.length ∧
    (vsaSignals open_ high low close volume window).noSupply.length = close.length ∧
    (vsaSignals open_ high low close volume window).testBar.length = close.length ∧
    (vsaSignals open_ high low close volume window).shakeout.length = close.length ∧
    (vsaSignals open_ high low close volume window).climactic.length = close.length ∧
    (vsaSignals open_ high low close volume window).spring.length = close.length ∧
    (vsaSignals open_ high low close volume window).demand.length = close.length ∧
    (vsaSignals open_ high low close volume window).effortResult.length = close.length ∧
    (vsaSignals open_ high low close volume window).volumeZ.length = close.length := by
  unfold vsaSignals
  dsimp only
  refine ⟨by simp, by simp, by simp, by simp, by simp, by simp, by simp, by simp,
    by simp, by simp, by simp⟩

/-- **C9.** Every derived series of the pipeline is total: `sma`, `ema`,
`std`, `atr`, `rsi` (library and App variants), both `macdLine` outputs,
`slope`, all eleven `vsaSignals` arrays and the per-row confidence series
have exactly one entry per input element, for every input and parameter —
insufficient-history positions hold the NaN sentinel (shown here for `sma`
below `period − 1` and for `rsi` below `period`) or zero, never a dropped
index, so series can be zipped by index. -/
theorem series_totality :
    (∀ arr period, (sma arr period).length = arr.length) ∧
    (∀ arr period, (ema arr period).length = arr.length) ∧
    (∀ arr period, (std arr period).length = arr.length) ∧
    (∀ high low close period, (atr high low close period).length = close.length) ∧
    (∀ arr period, (rsi arr period).length = arr.length) ∧
    (∀ arr period, (rsiApp arr period).length = arr.length) ∧
    (∀ arr fast slow signal, (macdLine arr fast slow signal).macd.length = arr.length ∧
      (macdLine arr fast slow signal).signal.length = arr.length) ∧
    (∀ arr window, (slope arr window).length = arr.length) ∧
    (∀ open_ high low close volume window,
      (vsaSignals open_ high low close volume window).combined.length = close.length ∧
      (vsaSignals open_ high low close volume window).score.length = close.length ∧
      (vsaSignals open_ high low close volume window).stopping.length = close.length ∧
      (vsaSignals open_ high low close volume window).noSupply.length = close.length ∧
      (vsaSignals open_ high low close volume window).testBar.length = close.length ∧
      (vsaSignals open_ high low close volume window).shakeout.length = close.length ∧
      (vsaSignals open_ high low close volume window).climactic.length = close.length ∧
      (vsaSignals open_ high low close volume window).spring.length = close.length ∧
      (vsaSignals open_ high low close volume window).demand.length = close.length ∧
      (vsaSignals open_ high low close volume window).effortResult.length = close.length ∧
      (vsaSignals open_ high low close volume window).volumeZ.length = close.length) ∧
    (∀ n ctx, (confidenceSeries n ctx).length = n) ∧
    (∀ arr period i, i + 1 < period → (sma arr period).getD i none = none) ∧
    (∀ arr period i, i < period → (rsi arr period).getD i none = none) := by
  refine ⟨sma_length, ema_length, std_length, atr_length, rsi_length, rsiApp_length,
    macdLine_length, slope_length, vsaSignals_lengths, ?_, ?_, ?_⟩
  · intro n ctx
    unfold confidenceSeries
    simp
  · intro arr period i hip
    rcases lt_or_ge i arr.length with hi | hi
    · rw [sma_eq_map arr period (by omega), getD_map_range _ _ _ _ hi,
        if_neg (by omega)]
    · exact List.getD_eq_default _ _ (by rw [sma_length]; omega)
  · intro arr period i hip
    unfold rsi
    split
    · exact getD_replicate_self _ _ _
    · rcases lt_or_ge i arr.length with hi | hi
      · rw [getD_map_range _ _ _ _ hi, if_pos hip]
      · exact List.getD_eq_default _ _ (by simpa using hi)

/-- Witness for `series_totality`: the sentinel clauses evaluated at a
concrete input. -/
theorem series_totality_witness :
    (0 + 1 < 3 ∧ (sma [some 1, some 2] 3).getD 0 none = none) ∧
      (1 < 14 ∧ (rsi [some 1, some 2, some 3] 14).getD 1 none = none) :=
  ⟨⟨by decide, series_totality.2.2.2.2.2.2.2.2.2.2.1 [some 1, some 2] 3 0 (by decide)⟩,
    ⟨by decide, series_totality.2.2.2.2.2.2.2.2.2.2.2 [some 1, some 2, some 3] 14 1 (by decide)⟩⟩

end Trading
